import Mathlib

/-!
Verification of the Athl3t ledger & settlement engine (src/db.py).

The Python database operations are shallowly embedded as pure functions on an
explicit database state.  Money columns (NUMERIC in the schema) are modelled as
rationals, quantity and score columns (INTEGER) as integers, ids and status
columns as naturals / strings.  Each Lean function below translates one Python
function of src/db.py; SQL statements become list operations on the state
(UPDATE ... WHERE key = a map over matching rows, fetchone = List.find?,
DELETE of the first matching row = List.eraseP, and so on).  A database
transaction that rolls back on a precondition failure is modelled by returning
the input state unchanged.
-/

namespace Athl3t

/-- Row of the `users` table (id, username, wallet_balance NUMERIC,
is_verified_adult BOOLEAN). -/
structure UserRow where
  id : String
  username : String
  walletBalance : ℚ
  isVerifiedAdult : Bool
deriving Repr, DecidableEq

/-- Row of the `holdings` table (user_id, asset_type, asset_name,
quantity INTEGER). -/
structure Holding where
  userId : String
  assetType : String
  assetName : String
  quantity : Int
deriving Repr, DecidableEq

/-- Row of the `transactions` table. -/
structure Txn where
  userId : String
  txnType : String
  assetType : String
  assetName : String
  price : ℚ
  quantity : Int
  purchasePrice : ℚ
  profitLoss : ℚ
deriving Repr, DecidableEq

/-- Row of the `trade_offers` table. -/
structure TOffer where
  id : Nat
  senderId : String
  recipientId : String
  status : String
deriving Repr, DecidableEq

/-- Row of the `trade_offer_assets` table. -/
structure TOfferAsset where
  tradeOfferId : Nat
  userId : String
  assetType : String
  assetName : String
  quantity : Int
deriving Repr, DecidableEq

/-- Row of the `upcoming_games` table.  `gameDate` is a timestamp modelled as
an integer instant; scores default to 0 in the schema, hence plain `Int`. -/
structure Game where
  id : Nat
  homeTeam : String
  awayTeam : String
  gameDate : Int
  homeOdds : ℚ
  awayOdds : ℚ
  spread : ℚ
  overUnder : ℚ
  status : String
  homeScore : Int
  awayScore : Int
deriving Repr, DecidableEq

/-- Row of the `user_bets` table. -/
structure Bet where
  id : Nat
  userId : String
  gameId : Nat
  betType : String
  betPick : String
  amount : ℚ
  potentialPayout : ℚ
  odds : ℚ
  status : String
deriving Repr, DecidableEq

/-- Row of the `parlays` table. -/
structure Parlay where
  id : Nat
  userId : String
  amount : ℚ
  potentialPayout : ℚ
  status : String
deriving Repr, DecidableEq

/-- Row of the `parlay_bets` table. -/
structure ParlayBet where
  id : Nat
  parlayId : Nat
  gameId : Nat
  betType : String
  betPick : String
  odds : ℚ
  status : String
deriving Repr, DecidableEq

/-- The whole database.  The `next*` counters model the SERIAL id columns
returned by `RETURNING id`. -/
structure DBState where
  users : List UserRow
  holdings : List Holding
  transactions : List Txn
  tradeOffers : List TOffer
  tradeOfferAssets : List TOfferAsset
  upcomingGames : List Game
  userBets : List Bet
  parlays : List Parlay
  parlayBets : List ParlayBet
  nextBetId : Nat
  nextParlayId : Nat
  nextParlayBetId : Nat
deriving Repr, DecidableEq

/-- `SELECT ... FROM users WHERE id = uid` followed by `fetchone`. -/
def findUser (s : DBState) (uid : String) : Option UserRow :=
  s.users.find? (fun u => u.id == uid)

/-- The wallet balance a `SELECT wallet_balance` would report (0 when the user
row is absent; used only to state theorems, never inside an operation). -/
def balanceOf (s : DBState) (uid : String) : ℚ :=
  ((findUser s uid).map UserRow.walletBalance).getD 0

/-- `UPDATE users SET wallet_balance = f(wallet_balance) WHERE id = uid`. -/
def updateBalance (s : DBState) (uid : String) (f : ℚ → ℚ) : DBState :=
  { s with users := s.users.map (fun u =>
      if u.id == uid then { u with walletBalance := f u.walletBalance } else u) }

/-- The WHERE clause `user_id = uid AND asset_type = ty AND asset_name = nm`
used by every holdings query. -/
def hmatch (uid ty nm : String) (h : Holding) : Bool :=
  h.userId == uid && h.assetType == ty && h.assetName == nm

/-- `SELECT ... FROM holdings WHERE user/type/name` followed by `fetchone`. -/
def findHolding (s : DBState) (uid ty nm : String) : Option Holding :=
  s.holdings.find? (hmatch uid ty nm)

/-- The quantity a read of the first matching holdings row reports
(0 when absent; used to state theorems). -/
def qtyOf (s : DBState) (uid ty nm : String) : Int :=
  ((findHolding s uid ty nm).map Holding.quantity).getD 0

/-- `UPDATE holdings SET quantity = ... WHERE id = :holding_id` where the id
was obtained from a `fetchone` on the key triple: only the first matching row
has its quantity rewritten. -/
def mapQtyFirst : List Holding → String → String → String → (Int → Int) → List Holding
  | [], _, _, _, _ => []
  | h :: rest, uid, ty, nm, f =>
    if hmatch uid ty nm h then { h with quantity := f h.quantity } :: rest
    else h :: mapQtyFirst rest uid ty nm f

/-- Overwrite the first matching row's quantity with `q`. -/
def setQtyFirst (l : List Holding) (uid ty nm : String) (q : Int) : List Holding :=
  mapQtyFirst l uid ty nm (fun _ => q)

/-- Add `q` to the first matching row's quantity. -/
def addQtyFirst (l : List Holding) (uid ty nm : String) (q : Int) : List Holding :=
  mapQtyFirst l uid ty nm (fun x => x + q)

/-- `UPDATE holdings SET quantity = quantity - q WHERE user/type/name`:
every matching row changes (the trade-offer code keys this UPDATE by the
triple, not by id). -/
def decAll (l : List Holding) (uid ty nm : String) (q : Int) : List Holding :=
  l.map (fun h => if hmatch uid ty nm h then { h with quantity := h.quantity - q } else h)

/-- Result of `execute_transaction` / `respond_to_trade_offer`
(success flag and message). -/
structure TxResult where
  success : Bool
  message : String
deriving Repr, DecidableEq

/-- The special-case block at the top of `execute_transaction` that inserts the
demo user with balance 300 when absent. -/
def demoEnsure (s : DBState) : DBState :=
  if (s.users.find? (fun u => u.id == "demo_user_001")).isSome then s
  else { s with users :=
    s.users ++ [⟨"demo_user_001", "Demo User", 300, false⟩] }

/-- `execute_transaction(user_id, asset_type, asset_name, transaction_type,
price, ...)` from src/db.py.  Buy: insufficient-funds check, debit, holding
increment (or insert with quantity 1), Buy record.  Sell: insufficient-holdings
check, credit, holding decrement (row deleted when quantity was exactly 1),
average-cost computation over prior Buy rows (Python truthiness: a zero average
falls through to the sale price), Sell record with realized profit/loss. -/
def execute_transaction (userId assetType assetName txnType : String)
    (price : ℚ) (s0 : DBState) : TxResult × DBState :=
  let s := if userId == "demo_user_001" then demoEnsure s0 else s0
  match s.users.find? (fun u => u.id == userId) with
  | none => (⟨false, "User not found"⟩, s)
  | some u =>
    if txnType == "buy" then
      if u.walletBalance < price then (⟨false, "Insufficient funds"⟩, s)
      else
        let s1 := updateBalance s userId (fun b => b - price)
        let s2 :=
          match findHolding s1 userId assetType assetName with
          | some h =>
            { s1 with holdings := setQtyFirst s1.holdings userId assetType assetName (h.quantity + 1) }
          | none =>
            { s1 with holdings := s1.holdings ++ [Holding.mk userId assetType assetName 1] }
        let txn : Txn := ⟨userId, "Buy", assetType, assetName, price, 1, price, 0⟩
        (⟨true, "Successfully bought"⟩,
          { s2 with transactions := s2.transactions ++ [txn] })
    else if txnType == "sell" then
      match findHolding s userId assetType assetName with
      | none => (⟨false, "You do not own any shares to sell"⟩, s)
      | some h =>
        if h.quantity < 1 then (⟨false, "You do not own any shares to sell"⟩, s)
        else
          let s1 := updateBalance s userId (fun b => b + price)
          let s2 :=
            if h.quantity == 1 then
              { s1 with holdings := s1.holdings.eraseP (hmatch userId assetType assetName) }
            else
              { s1 with holdings := setQtyFirst s1.holdings userId assetType assetName (h.quantity - 1) }
          let priorBuys := (s.transactions.filter (fun t =>
              t.userId == userId && t.assetType == assetType &&
              t.assetName == assetName && t.txnType == "Buy")).map Txn.price
          let avgPurchasePrice :=
            if priorBuys.isEmpty then price
            else
              let a := priorBuys.sum / priorBuys.length
              if a == 0 then price else a
          let profitLoss := price - avgPurchasePrice
          let txn : Txn := ⟨userId, "Sell", assetType, assetName, price, 1,
            avgPurchasePrice, profitLoss⟩
          (⟨true, "Successfully sold"⟩,
            { s2 with transactions := s2.transactions ++ [txn] })
    else (⟨false, "Invalid transaction type"⟩, s)

/-- Does the holder of `a.userId` still hold at least `a.quantity` shares of
the asset?  This is the re-validation check in `respond_to_trade_offer`
(`if not result or result[0] < asset["quantity"]`). -/
def holdsEnough (s : DBState) (a : TOfferAsset) : Bool :=
  match findHolding s a.userId a.assetType a.assetName with
  | none => false
  | some h => a.quantity ≤ h.quantity

/-- One asset transfer inside the accept branch of `respond_to_trade_offer`:
decrement every holdings row of `a.userId` matching the asset (the UPDATE is
keyed by the triple, not by row id), then add the quantity to `toUser`,
inserting a fresh row when `toUser` has none. -/
def applyTransfer (toUser : String) (hl : List Holding) (a : TOfferAsset) :
    List Holding :=
  let hl1 := decAll hl a.userId a.assetType a.assetName a.quantity
  match hl1.find? (hmatch toUser a.assetType a.assetName) with
  | some _ => addQtyFirst hl1 toUser a.assetType a.assetName a.quantity
  | none => hl1 ++ [Holding.mk toUser a.assetType a.assetName a.quantity]

/-- `respond_to_trade_offer(offer_id, user_id, action)` from src/db.py.  The
offer must be addressed to `uid` and still pending.  `reject` only flips the
status.  Any other action executes the swap: both sides are re-validated
against current holdings (failure rolls the transaction back, leaving the
state — including the pending status — untouched); on success every offered
asset moves from the sender to the recipient and every requested asset moves
from the recipient to the sender, the offer is marked accepted, and rows with
quantity ≤ 0 are pruned. -/
def respond_to_trade_offer (offerId : Nat) (uid action : String)
    (s : DBState) : TxResult × DBState :=
  match s.tradeOffers.find? (fun t => t.id == offerId && t.recipientId == uid) with
  | none => (⟨false, "Trade offer not found or not for you"⟩, s)
  | some offer =>
    if offer.status != "pending" then
      (⟨false, "This trade offer has already been processed"⟩, s)
    else if action == "reject" then
      (⟨true, "You have rejected the trade offer"⟩,
        { s with tradeOffers := s.tradeOffers.map (fun t =>
            if t.id == offerId then { t with status := "rejected" } else t) })
    else
      let assets := s.tradeOfferAssets.filter (fun a => a.tradeOfferId == offerId)
      let senderAssets := assets.filter (fun a => a.userId == offer.senderId)
      let recipientAssets := assets.filter (fun a => !(a.userId == offer.senderId))
      if !(senderAssets.all (holdsEnough s)) then
        (⟨false, "Sender no longer has the offered shares"⟩, s)
      else if !(recipientAssets.all (holdsEnough s)) then
        (⟨false, "You no longer have the requested shares"⟩, s)
      else
        let hl1 := senderAssets.foldl (applyTransfer offer.recipientId) s.holdings
        let hl2 := recipientAssets.foldl (applyTransfer offer.senderId) hl1
        let s1 := { s with
          holdings := hl2.filter (fun h => decide (0 < h.quantity)),
          tradeOffers := s.tradeOffers.map (fun t =>
            if t.id == offerId then { t with status := "accepted" } else t) }
        (⟨true, "Trade completed successfully"⟩, s1)

/-- `is_user_verified_adult(user_id)` from src/db.py: `False` for unknown
users, otherwise the stored flag. -/
def is_user_verified_adult (s : DBState) (uid : String) : Bool :=
  match s.users.find? (fun u => u.id == uid) with
  | none => false
  | some u => u.isVerifiedAdult

/-- Python `round(x, 2)` on exact decimal inputs: round half to even at two
decimal places. -/
def roundHalfEven (q : ℚ) : Int :=
  let n := ⌊q⌋
  let f := q - n
  if f < 1/2 then n
  else if 1/2 < f then n + 1
  else if n % 2 = 0 then n else n + 1

/-- Two-decimal rounding used for potential payouts. -/
def round2 (q : ℚ) : ℚ := (roundHalfEven (100 * q) : ℚ) / 100

/-- Result of `place_bet` / `create_parlay_bet`: success flag, message, and the
created id. -/
structure BetResult where
  success : Bool
  message : String
  betId : Option Nat
deriving Repr, DecidableEq

/-- Odds selection in `place_bet` / `create_parlay_bet`: moneyline picks use
the game odds (any pick other than home is treated as away), spread and
over-under use the fixed 1.91 multiplier, anything else keeps the initial 0. -/
def betOdds (g : Game) (betType betPick : String) : ℚ :=
  if betType == "moneyline" then
    if betPick == "home" then g.homeOdds else g.awayOdds
  else if betType == "spread" || betType == "over_under" then 191/100
  else 0

/-- The game lookup shared by `place_bet` and `create_parlay_bet`:
`WHERE id = gid AND status = 'scheduled' AND game_date > CURRENT_TIMESTAMP`. -/
def findOpenGame (s : DBState) (gid : Nat) (now : Int) : Option Game :=
  s.upcomingGames.find? (fun g =>
    g.id == gid && g.status == "scheduled" && decide (now < g.gameDate))

/-- `place_bet(user_id, game_id, bet_type, bet_pick, amount)` from src/db.py.
The age gate runs before anything else; then the open-game lookup, the user
lookup, and the funds check; on success the stake is debited and a pending
bet row is inserted.  There is no minimum-stake validation. -/
def place_bet (uid : String) (gameId : Nat) (betType betPick : String)
    (amount : ℚ) (now : Int) (s : DBState) : BetResult × DBState :=
  if !(is_user_verified_adult s uid) then
    (⟨false, "You must be 21 or older to place bets", none⟩, s)
  else
    match findOpenGame s gameId now with
    | none => (⟨false, "Game not found or betting is closed for this game", none⟩, s)
    | some g =>
      match s.users.find? (fun u => u.id == uid) with
      | none => (⟨false, "User not found", none⟩, s)
      | some u =>
        if u.walletBalance < amount then
          (⟨false, "Insufficient funds", none⟩, s)
        else
          let odds := betOdds g betType betPick
          let payout := round2 (amount * odds)
          let s1 := updateBalance s uid (fun b => b - amount)
          let bet : Bet := ⟨s.nextBetId, uid, gameId, betType, betPick,
            amount, payout, odds, "pending"⟩
          (⟨true, "Bet placed successfully", some s.nextBetId⟩,
            { s1 with userBets := s1.userBets ++ [bet],
                      nextBetId := s.nextBetId + 1 })

/-- One requested leg of a parlay (`bets` argument of `create_parlay_bet`). -/
structure LegReq where
  gameId : Nat
  betType : String
  betPick : String
deriving Repr, DecidableEq

/-- The validation loop of `create_parlay_bet`: each leg's game must be open
for betting; the leg is paired with its odds.  `none` models the early return
on the first closed or missing game. -/
def legOddsList (s : DBState) (now : Int) : List LegReq → Option (List (LegReq × ℚ))
  | [] => some []
  | b :: rest =>
    match findOpenGame s b.gameId now with
    | none => none
    | some g =>
      match legOddsList s now rest with
      | none => none
      | some l => some ((b, betOdds g b.betType b.betPick) :: l)

/-- The `parlay_bets` INSERT loop of `create_parlay_bet`. -/
def mkParlayBets (pid : Nat) : Nat → List (LegReq × ℚ) → List ParlayBet
  | _, [] => []
  | i, (b, o) :: rest =>
    ⟨i, pid, b.gameId, b.betType, b.betPick, o, "pending"⟩ :: mkParlayBets pid (i + 1) rest

/-- `create_parlay_bet(user_id, bets, amount)` from src/db.py: age gate, at
least two legs, user and funds checks, per-leg game validation with combined
odds as the product of leg odds, stake debit, parlay and leg inserts,
all pending. -/
def create_parlay_bet (uid : String) (bets : List LegReq) (amount : ℚ)
    (now : Int) (s : DBState) : BetResult × DBState :=
  if !(is_user_verified_adult s uid) then
    (⟨false, "You must be 21 or older to place bets", none⟩, s)
  else if bets.length < 2 then
    (⟨false, "A parlay must include at least 2 selections", none⟩, s)
  else
    match s.users.find? (fun u => u.id == uid) with
    | none => (⟨false, "User not found", none⟩, s)
    | some u =>
      if u.walletBalance < amount then
        (⟨false, "Insufficient funds", none⟩, s)
      else
        match legOddsList s now bets with
        | none => (⟨false, "Game not found or betting is closed for this game", none⟩, s)
        | some legs =>
          let totalOdds := legs.foldl (fun acc l => acc * l.2) 1
          let payout := round2 (amount * totalOdds)
          let s1 := updateBalance s uid (fun b => b - amount)
          let pid := s.nextParlayId
          let parlay : Parlay := ⟨pid, uid, amount, payout, "pending"⟩
          (⟨true, "Parlay created successfully", some pid⟩,
            { s1 with
              parlays := s1.parlays ++ [parlay],
              parlayBets := s1.parlayBets ++ mkParlayBets pid s.nextParlayBetId legs,
              nextParlayId := pid + 1,
              nextParlayBetId := s.nextParlayBetId + legs.length })

/-- Result of `simulate_game_result`. -/
structure SimResult where
  success : Bool
  message : String
deriving Repr, DecidableEq

/-- The per-bet outcome predicate of `simulate_game_result` (shared by single
bets and parlay legs): a bet type outside the three known ones never wins. -/
def legWon (homeWon homeCovered overHit : Bool) (betType betPick : String) : Bool :=
  if betType == "moneyline" then
    if betPick == "home" then homeWon else !homeWon
  else if betType == "spread" then
    if betPick == "home" then homeCovered else !homeCovered
  else if betType == "over_under" then
    if betPick == "over" then overHit else !overHit
  else false

/-- The single-bet settlement loop: set the status of the fetched pending bet
(keyed by id) to won or lost and credit the potential payout on a win. -/
def settleBetStep (homeWon homeCovered overHit : Bool) (st : DBState) (b : Bet) :
    DBState :=
  let w := legWon homeWon homeCovered overHit b.betType b.betPick
  let st1 := { st with userBets := st.userBets.map (fun b2 =>
      if b2.id == b.id then { b2 with status := if w then "won" else "lost" } else b2) }
  if w then updateBalance st1 b.userId (fun x => x + b.potentialPayout) else st1

/-- The parlay-leg settlement loop: only the leg status changes here. -/
def settleLegStep (homeWon homeCovered overHit : Bool) (st : DBState)
    (pr : ParlayBet × Parlay) : DBState :=
  let w := legWon homeWon homeCovered overHit pr.1.betType pr.1.betPick
  { st with parlayBets := st.parlayBets.map (fun pb2 =>
      if pb2.id == pr.1.id then { pb2 with status := if w then "won" else "lost" } else pb2) }

/-- The parlay completion pass: once a parlay has no pending legs left it is
won (and paid) when no leg is lost, otherwise lost. -/
def completeParlayStep (st : DBState) (p : Parlay) : DBState :=
  let remaining := (st.parlayBets.filter (fun pb =>
      pb.parlayId == p.id && pb.status == "pending")).length
  if remaining == 0 then
    let lostCount := (st.parlayBets.filter (fun pb =>
        pb.parlayId == p.id && pb.status == "lost")).length
    if lostCount == 0 then
      let st1 := { st with parlays := st.parlays.map (fun p2 =>
          if p2.id == p.id then { p2 with status := "won" } else p2) }
      updateBalance st1 p.userId (fun x => x + p.potentialPayout)
    else
      { st with parlays := st.parlays.map (fun p2 =>
          if p2.id == p.id then { p2 with status := "lost" } else p2) }
  else st

/-- The `parlay_bets JOIN parlays` fetch of `simulate_game_result`: pending
legs of this game whose parlay is itself still pending, paired with the joined
parlay row. -/
def joinedLegs (s : DBState) (gameId : Nat) : List (ParlayBet × Parlay) :=
  s.parlayBets.filterMap (fun pb =>
    if pb.gameId == gameId && pb.status == "pending" then
      match s.parlays.find? (fun p => p.id == pb.parlayId) with
      | some p => if p.status == "pending" then some (pb, p) else none
      | none => none
    else none)

/-- The insertion-ordered `parlay_results` dictionary of the settlement code,
reduced to the fields the completion pass reads (one joined parlay row per
distinct parlay id). -/
def dedupParlays (l : List (ParlayBet × Parlay)) : List Parlay :=
  l.foldl (fun acc pr =>
    if acc.any (fun p => p.id == pr.2.id) then acc else acc ++ [pr.2]) []

/-- The `UPDATE upcoming_games SET status = 'completed', home_score = ...,
away_score = ... WHERE id = gameId` statement of `simulate_game_result`. -/
def gameSet (gameId : Nat) (homeScore awayScore : Int) (s : DBState) : DBState :=
  { s with upcomingGames := s.upcomingGames.map (fun (g : Game) =>
      if g.id == gameId then
        { g with status := "completed", homeScore := homeScore, awayScore := awayScore }
      else g) }

/-- The three settlement passes of `simulate_game_result`, parameterised by
the computed outcome predicates: settle every pending single bet on the game,
settle every pending leg (of a still-pending parlay) on the game, then
complete each affected parlay. -/
def settleCore (gameId : Nat) (homeWon homeCovered overHit : Bool)
    (s1 : DBState) : DBState :=
  let pendingBets := s1.userBets.filter (fun (b : Bet) =>
      b.gameId == gameId && b.status == "pending")
  let s2 := pendingBets.foldl (settleBetStep homeWon homeCovered overHit) s1
  let joined := joinedLegs s2 gameId
  let s3 := joined.foldl (settleLegStep homeWon homeCovered overHit) s2
  (dedupParlays joined).foldl completeParlayStep s3

/-- `simulate_game_result(game_id)` from src/db.py, with the randomly drawn
final score passed in as `homeScore` / `awayScore`.  The game row is fetched
with no status filter, its status and scores are overwritten, the three
outcome predicates are computed, then every pending single bet on the game is
settled, every pending leg of a still-pending parlay is settled, and the
affected parlays are completed. -/
def simulate_game_result (gameId : Nat) (homeScore awayScore : Int)
    (s : DBState) : SimResult × DBState :=
  match s.upcomingGames.find? (fun g => g.id == gameId) with
  | none => (⟨false, "Game not found"⟩, s)
  | some game =>
    let homeWon := awayScore < homeScore
    let homeCovered := (awayScore : ℚ) < (homeScore : ℚ) + game.spread
    let overHit := game.overUnder < ((homeScore + awayScore : Int) : ℚ)
    (⟨true, "Game simulated successfully"⟩,
      settleCore gameId homeWon homeCovered overHit
        (gameSet gameId homeScore awayScore s))

/-! Replay of buy/sell sequences on one account, for the ledger invariant. -/

/-- One buy/sell request against `execute_transaction`. -/
structure TradeOp where
  assetType : String
  assetName : String
  txnType : String
  price : ℚ
deriving Repr, DecidableEq

/-- Run one `TradeOp` for user `uid`. -/
def applyOp (uid : String) (s : DBState) (op : TradeOp) : TxResult × DBState :=
  execute_transaction uid op.assetType op.assetName op.txnType op.price s

/-- Replay a sequence of operations, keeping only the state. -/
def replay (uid : String) : List TradeOp → DBState → DBState
  | [], s => s
  | op :: rest, s => replay uid rest (applyOp uid s op).2

/-- Sum of the signed cash deltas of the accepted operations of a replay:
an accepted buy contributes `-price`, an accepted sell `+price`, a rejected
operation contributes nothing. -/
def cashDeltaSum (uid : String) : List TradeOp → DBState → ℚ
  | [], _ => 0
  | op :: rest, s =>
    let r := applyOp uid s op
    (if r.1.success then (if op.txnType == "buy" then -op.price else op.price) else 0)
      + cashDeltaSum uid rest r.2

/-- Sum of the signed quantity deltas of the accepted operations touching the
asset `(ty, nm)`: an accepted buy contributes `+1`, an accepted sell `-1`. -/
def qtyDeltaSum (uid ty nm : String) : List TradeOp → DBState → Int
  | [], _ => 0
  | op :: rest, s =>
    let r := applyOp uid s op
    (if r.1.success && op.assetType == ty && op.assetName == nm then
        (if op.txnType == "buy" then 1 else -1) else 0)
      + qtyDeltaSum uid ty nm rest r.2

/-- The key of a holdings row, for uniqueness hypotheses. -/
def hkey (h : Holding) : String × String × String :=
  (h.userId, h.assetType, h.assetName)

/-! Helper lemmas about the row-level primitives. -/

/-- `find?` commutes with a map that does not change the predicate's value. -/
theorem find?_map_comm {α : Type} (p : α → Bool) (m : α → α)
    (hm : ∀ x, p (m x) = p x) (l : List α) :
    (l.map m).find? p = (l.find? p).map m := by
  induction l with
  | nil => rfl
  | cons a l ih =>
    by_cases ha : p a = true
    · rw [List.map_cons, List.find?_cons_of_pos _ ((hm a).trans ha),
        List.find?_cons_of_pos _ ha]
      rfl
    · rw [List.map_cons, List.find?_cons_of_neg _ (by rw [hm a]; simpa using ha),
        List.find?_cons_of_neg _ (by simpa using ha)]
      exact ih

theorem hmatch_iff (uid ty nm : String) (h : Holding) :
    hmatch uid ty nm h = true ↔ hkey h = (uid, ty, nm) := by
  simp [hmatch, hkey, and_assoc]

theorem hmatch_quantity_update (uid ty nm : String) (h : Holding) (q : Int) :
    hmatch uid ty nm { h with quantity := q } = hmatch uid ty nm h := rfl

theorem find?_hmatch_of_not_mem (l : List Holding) (uid ty nm : String)
    (hk : (uid, ty, nm) ∉ l.map hkey) : l.find? (hmatch uid ty nm) = none := by
  rw [List.find?_eq_none]
  intro x hx hmx
  exact hk (by
    rw [← (hmatch_iff uid ty nm x).mp hmx]
    exact List.mem_map_of_mem hkey hx)

theorem find?_mapQtyFirst_self (l : List Holding) (uid ty nm : String)
    (f : Int → Int) (h : Holding) (hf : l.find? (hmatch uid ty nm) = some h) :
    (mapQtyFirst l uid ty nm f).find? (hmatch uid ty nm)
      = some { h with quantity := f h.quantity } := by
  induction l with
  | nil => simp [List.find?] at hf
  | cons a l ih =>
    by_cases ha : hmatch uid ty nm a = true
    · rw [List.find?_cons_of_pos _ ha] at hf
      cases hf
      simp [mapQtyFirst, ha, List.find?_cons_of_pos, hmatch_quantity_update, ha]
    · rw [List.find?_cons_of_neg _ (by simpa using ha)] at hf
      simp only [mapQtyFirst, ha, if_neg, ite_false, Bool.false_eq_true]
      rw [List.find?_cons_of_neg _ (by simpa using ha)]
      exact ih hf

theorem find?_mapQtyFirst_other (l : List Holding) (uid ty nm u2 t2 n2 : String)
    (f : Int → Int) (hne : (u2, t2, n2) ≠ (uid, ty, nm)) :
    (mapQtyFirst l uid ty nm f).find? (hmatch u2 t2 n2)
      = l.find? (hmatch u2 t2 n2) := by
  induction l with
  | nil => simp [mapQtyFirst]
  | cons a l ih =>
    by_cases ha : hmatch uid ty nm a = true
    · have ha2 : hmatch u2 t2 n2 a = false := by
        by_contra hc
        have h1 := (hmatch_iff uid ty nm a).mp ha
        have h2 := (hmatch_iff u2 t2 n2 a).mp (by simpa using hc)
        exact hne (h2 ▸ h1 ▸ rfl)
      simp only [mapQtyFirst, ha, ite_true]
      rw [List.find?_cons_of_neg _ (by simp [hmatch_quantity_update, ha2]),
        List.find?_cons_of_neg _ (by simp [ha2])]
    · simp only [mapQtyFirst, ha, Bool.false_eq_true, ite_false]
      by_cases ha2 : hmatch u2 t2 n2 a = true
      · rw [List.find?_cons_of_pos _ ha2, List.find?_cons_of_pos _ ha2]
      · rw [List.find?_cons_of_neg _ (by simpa using ha2),
          List.find?_cons_of_neg _ (by simpa using ha2)]
        exact ih

theorem mapQtyFirst_of_find?_none (l : List Holding) (uid ty nm : String)
    (f : Int → Int) (hf : l.find? (hmatch uid ty nm) = none) :
    mapQtyFirst l uid ty nm f = l := by
  induction l with
  | nil => rfl
  | cons a l ih =>
    rw [List.find?_eq_none] at hf
    have ha : ¬ hmatch uid ty nm a = true := hf a (by simp)
    simp only [mapQtyFirst, ha, Bool.false_eq_true, ite_false, List.cons.injEq, true_and]
    exact ih (by
      rw [List.find?_eq_none]
      intro x hx
      exact hf x (by simp [hx]))

theorem mem_mapQtyFirst (l : List Holding) (uid ty nm : String) (f : Int → Int)
    (x : Holding) (hx : x ∈ mapQtyFirst l uid ty nm f) :
    x ∈ l ∨ ∃ h ∈ l, x = { h with quantity := f h.quantity } := by
  induction l with
  | nil => simp [mapQtyFirst] at hx
  | cons a l ih =>
    by_cases ha : hmatch uid ty nm a = true
    · simp only [mapQtyFirst, ha, ite_true] at hx
      rcases List.mem_cons.mp hx with h | h
      · exact Or.inr ⟨a, by simp, h⟩
      · exact Or.inl (by simp [h])
    · simp only [mapQtyFirst, ha, Bool.false_eq_true, ite_false] at hx
      rcases List.mem_cons.mp hx with h | h
      · exact Or.inl (by simp [h])
      · rcases ih h with h2 | ⟨b, hb, hb2⟩
        · exact Or.inl (by simp [h2])
        · exact Or.inr ⟨b, by simp [hb], hb2⟩

theorem map_hkey_mapQtyFirst (l : List Holding) (uid ty nm : String)
    (f : Int → Int) : (mapQtyFirst l uid ty nm f).map hkey = l.map hkey := by
  induction l with
  | nil => rfl
  | cons a l ih =>
    by_cases ha : hmatch uid ty nm a = true
    · simp [mapQtyFirst, ha, hkey]
    · simp [mapQtyFirst, ha, ih]

theorem find?_eraseP_self (l : List Holding) (uid ty nm : String)
    (hnd : (l.map hkey).Nodup) :
    (l.eraseP (hmatch uid ty nm)).find? (hmatch uid ty nm) = none := by
  induction l with
  | nil => rfl
  | cons a l ih =>
    simp only [List.map_cons, List.nodup_cons] at hnd
    by_cases ha : hmatch uid ty nm a = true
    · rw [List.eraseP_cons_of_pos ha]
      apply find?_hmatch_of_not_mem
      rw [← (hmatch_iff uid ty nm a).mp ha]
      exact hnd.1
    · rw [List.eraseP_cons_of_neg (by simpa using ha),
        List.find?_cons_of_neg _ (by simpa using ha)]
      exact ih hnd.2

theorem find?_eraseP_other (l : List Holding) (uid ty nm u2 t2 n2 : String)
    (hne : (u2, t2, n2) ≠ (uid, ty, nm)) :
    (l.eraseP (hmatch uid ty nm)).find? (hmatch u2 t2 n2)
      = l.find? (hmatch u2 t2 n2) := by
  induction l with
  | nil => rfl
  | cons a l ih =>
    by_cases ha : hmatch uid ty nm a = true
    · have ha2 : hmatch u2 t2 n2 a = false := by
        by_contra hc
        have h1 := (hmatch_iff uid ty nm a).mp ha
        have h2 := (hmatch_iff u2 t2 n2 a).mp (by simpa using hc)
        exact hne (h2 ▸ h1 ▸ rfl)
      rw [List.eraseP_cons_of_pos ha, List.find?_cons_of_neg _ (by simp [ha2])]
    · rw [List.eraseP_cons_of_neg (by simpa using ha)]
      by_cases ha2 : hmatch u2 t2 n2 a = true
      · rw [List.find?_cons_of_pos _ ha2, List.find?_cons_of_pos _ ha2]
      · rw [List.find?_cons_of_neg _ (by simpa using ha2),
          List.find?_cons_of_neg _ (by simpa using ha2)]
        exact ih

theorem map_hkey_eraseP_nodup (l : List Holding) (p : Holding → Bool)
    (hnd : (l.map hkey).Nodup) : ((l.eraseP p).map hkey).Nodup :=
  hnd.sublist ((List.eraseP_sublist l).map hkey)

/-! Helper lemmas about the users table. -/

theorem findUser_updateBalance (s : DBState) (uid : String) (f : ℚ → ℚ) :
    findUser (updateBalance s uid f) uid
      = (findUser s uid).map (fun u =>
          if u.id == uid then { u with walletBalance := f u.walletBalance } else u) := by
  unfold findUser updateBalance
  exact find?_map_comm _ _ (fun x => by by_cases hx : (x.id == uid) = true <;> simp [hx]) _

theorem findUser_updateBalance_self (s : DBState) (uid : String) (f : ℚ → ℚ)
    (u : UserRow) (hu : findUser s uid = some u) :
    findUser (updateBalance s uid f) uid
      = some { u with walletBalance := f u.walletBalance } := by
  rw [findUser_updateBalance, hu]
  have hu2 : List.find? (fun x => x.id == uid) s.users = some u := hu
  have hp : u.id = uid := by simpa using List.find?_some hu2
  simp [hp]

theorem balanceOf_updateBalance (s : DBState) (uid : String) (f : ℚ → ℚ)
    (u : UserRow) (hu : findUser s uid = some u) :
    balanceOf (updateBalance s uid f) uid = f u.walletBalance := by
  simp [balanceOf, findUser_updateBalance_self s uid f u hu]

theorem findUser_isSome_updateBalance (s : DBState) (uid : String) (f : ℚ → ℚ)
    (hu : (findUser s uid).isSome) : (findUser (updateBalance s uid f) uid).isSome := by
  rw [findUser_updateBalance]
  simpa using hu

/-- With the user present, the demo-user initialisation block of
`execute_transaction` is a no-op. -/
theorem demo_skip (uid : String) (s : DBState)
    (hu : (s.users.find? (fun u => u.id == uid)).isSome) :
    (if uid == "demo_user_001" then demoEnsure s else s) = s := by
  split
  · rename_i hd
    have : uid = "demo_user_001" := by simpa using hd
    subst this
    simp [demoEnsure, hu]
  · rfl

/-! Claim C10: age gate on all wagering operations. -/

/-- C10: for every user whose `is_verified_adult` flag is not true (including
unknown users), `place_bet` and `create_parlay_bet` fail with the
age-verification message and leave the whole state — wallet balances and all
bet/parlay records included — unchanged, regardless of the stake, the game, or
the user's funds. -/
theorem wagering_requires_age_verification
    (s : DBState) (uid : String) (gameId : Nat) (betType betPick : String)
    (amount : ℚ) (now : Int) (bets : List LegReq)
    (h : ∀ u ∈ s.users, u.id = uid → u.isVerifiedAdult = false) :
    place_bet uid gameId betType betPick amount now s
      = (⟨false, "You must be 21 or older to place bets", none⟩, s)
    ∧ create_parlay_bet uid bets amount now s
      = (⟨false, "You must be 21 or older to place bets", none⟩, s) := by
  have hv : is_user_verified_adult s uid = false := by
    unfold is_user_verified_adult
    cases hf : s.users.find? (fun u => u.id == uid) with
    | none => rfl
    | some u =>
      exact h u (List.mem_of_find?_eq_some hf) (by simpa using List.find?_some hf)
  exact ⟨by simp [place_bet, hv], by simp [create_parlay_bet, hv]⟩

/-- A state whose only user is not age-verified, with an open game and ample
funds. -/
def ageGateState : DBState :=
  ⟨[⟨"u2", "User Two", 300, false⟩], [], [], [], [],
    [⟨1, "H", "A", 10, 3/2, 2, -(7/2), 44, "scheduled", 0, 0⟩], [], [], [], 1, 1, 1⟩

theorem wagering_requires_age_verification_witness :
    place_bet "u2" 1 "moneyline" "home" 10 0 ageGateState
      = (⟨false, "You must be 21 or older to place bets", none⟩, ageGateState)
    ∧ create_parlay_bet "u2" [⟨1, "moneyline", "home"⟩, ⟨1, "moneyline", "away"⟩] 10 0 ageGateState
      = (⟨false, "You must be 21 or older to place bets", none⟩, ageGateState) :=
  wagering_requires_age_verification ageGateState "u2" 1 "moneyline" "home" 10 0
    [⟨1, "moneyline", "home"⟩, ⟨1, "moneyline", "away"⟩]
    (by intro u hu; simp [ageGateState] at hu; simp [hu])

/-! Claim C2: failed buys and sells roll back completely. -/

/-- C2: a buy fails with the insufficient-funds error when the wallet balance
is below the price, and a sell fails with the insufficient-holdings error when
the holding quantity is below 1 (including a missing holding row); in both
cases the returned state is exactly the input state, so wallet, holdings and
transaction log are untouched. -/
theorem execute_transaction_insufficient_rollback
    (uid ty nm : String) (price : ℚ) (s : DBState) (u : UserRow)
    (hu : s.users.find? (fun x => x.id == uid) = some u) :
    (u.walletBalance < price →
      execute_transaction uid ty nm "buy" price s = (⟨false, "Insufficient funds"⟩, s))
    ∧ (qtyOf s uid ty nm < 1 →
      execute_transaction uid ty nm "sell" price s
        = (⟨false, "You do not own any shares to sell"⟩, s)) := by
  have hds : (if uid == "demo_user_001" then demoEnsure s else s) = s :=
    demo_skip uid s (by simp [hu])
  constructor
  · intro hlt
    simp only [execute_transaction, hds, hu]
    simp [hlt]
  · intro hq
    simp only [execute_transaction, hds, hu]
    cases hf : findHolding s uid ty nm with
    | none => simp [hf]
    | some h =>
      have hq1 : h.quantity < 1 := by simpa [qtyOf, hf] using hq
      simp [hf, hq1, not_lt.mpr hq1]

/-- A state with one user with balance 300 and no holdings. -/
def plainState : DBState :=
  ⟨[⟨"u1", "User One", 300, true⟩], [], [], [], [], [], [], [], [], 1, 1, 1⟩

theorem execute_transaction_insufficient_rollback_witness :
    execute_transaction "u1" "Player" "A" "buy" 400 plainState
      = (⟨false, "Insufficient funds"⟩, plainState)
    ∧ execute_transaction "u1" "Player" "A" "sell" 30 plainState
      = (⟨false, "You do not own any shares to sell"⟩, plainState) :=
  ⟨(execute_transaction_insufficient_rollback "u1" "Player" "A" 400 plainState
      ⟨"u1", "User One", 300, true⟩ (by simp [plainState])).1 (by norm_num),
   (execute_transaction_insufficient_rollback "u1" "Player" "A" 30 plainState
      ⟨"u1", "User One", 300, true⟩ (by simp [plainState])).2
      (by simp [qtyOf, findHolding, plainState])⟩

/-! Claim C9: minimum stake.  `place_bet` has no minimum-stake check: the only
amount-related validation is the funds comparison, so stakes below 5 —
including 0 and negative stakes — are accepted. -/

/-- A state with one verified user (balance 300) and one open game. -/
def betOpenState : DBState :=
  ⟨[⟨"u1", "User One", 300, true⟩], [], [], [], [],
    [⟨1, "H", "A", 10, 3/2, 2, -(7/2), 44, "scheduled", 0, 0⟩], [], [], [], 1, 1, 1⟩

/-- C9 counterexample: a stake of 0 — far below the claimed minimum of 5 — is
accepted by `place_bet`, which creates a pending bet record instead of failing
with an invalid-stake error. -/
theorem place_bet_zero_stake_accepted :
    (place_bet "u1" 1 "moneyline" "home" 0 0 betOpenState).1.success = true
    ∧ (place_bet "u1" 1 "moneyline" "home" 0 0 betOpenState).2.userBets
        = [⟨1, "u1", 1, "moneyline", "home", 0, 0, 3/2, "pending"⟩] := by
  constructor
  · norm_num [place_bet, is_user_verified_adult, findOpenGame, betOpenState]
  · norm_num [place_bet, is_user_verified_adult, findOpenGame, betOpenState,
      updateBalance, betOdds, round2, roundHalfEven]

/-- C9 amended: `place_bet` applies no minimum-stake validation.  Whenever the
age, game, user and funds checks pass, any stake — 0 and negative values
included — is accepted: the wallet is debited by exactly the stake and a
pending bet row is appended. -/
theorem place_bet_accepts_any_stake
    (uid : String) (gameId : Nat) (betType betPick : String) (amount : ℚ)
    (now : Int) (s : DBState) (g : Game) (u : UserRow)
    (hv : is_user_verified_adult s uid = true)
    (hg : findOpenGame s gameId now = some g)
    (hu : s.users.find? (fun x => x.id == uid) = some u)
    (hf : ¬ u.walletBalance < amount) :
    (place_bet uid gameId betType betPick amount now s).1.success = true
    ∧ balanceOf (place_bet uid gameId betType betPick amount now s).2 uid
        = u.walletBalance - amount
    ∧ (place_bet uid gameId betType betPick amount now s).2.userBets
        = s.userBets ++ [⟨s.nextBetId, uid, gameId, betType, betPick, amount,
            round2 (amount * betOdds g betType betPick),
            betOdds g betType betPick, "pending"⟩] := by
  have hrun : place_bet uid gameId betType betPick amount now s
      = (⟨true, "Bet placed successfully", some s.nextBetId⟩,
         { updateBalance s uid (fun b => b - amount) with
           userBets := s.userBets ++ [⟨s.nextBetId, uid, gameId, betType, betPick, amount,
             round2 (amount * betOdds g betType betPick),
             betOdds g betType betPick, "pending"⟩],
           nextBetId := s.nextBetId + 1 }) := by
    simp only [place_bet, hv, hg, hu]
    simp [hf]
    rfl
  rw [hrun]
  refine ⟨rfl, ?_, rfl⟩
  show balanceOf (updateBalance s uid (fun b => b - amount)) uid = u.walletBalance - amount
  exact balanceOf_updateBalance s uid _ u hu

theorem place_bet_accepts_any_stake_witness :
    (0 : ℚ) < 5
    ∧ ((place_bet "u1" 1 "moneyline" "home" 0 0 betOpenState).1.success = true
      ∧ balanceOf (place_bet "u1" 1 "moneyline" "home" 0 0 betOpenState).2 "u1"
          = 300 - 0
      ∧ (place_bet "u1" 1 "moneyline" "home" 0 0 betOpenState).2.userBets
          = [] ++ [⟨1, "u1", 1, "moneyline", "home", 0,
              round2 (0 * betOdds ⟨1, "H", "A", 10, 3/2, 2, -(7/2), 44, "scheduled", 0, 0⟩ "moneyline" "home"),
              betOdds ⟨1, "H", "A", 10, 3/2, 2, -(7/2), 44, "scheduled", 0, 0⟩ "moneyline" "home",
              "pending"⟩]) :=
  ⟨by norm_num,
   place_bet_accepts_any_stake "u1" 1 "moneyline" "home" 0 0 betOpenState
     ⟨1, "H", "A", 10, 3/2, 2, -(7/2), 44, "scheduled", 0, 0⟩
     ⟨"u1", "User One", 300, true⟩
     (by norm_num [is_user_verified_adult, betOpenState])
     (by norm_num [findOpenGame, betOpenState])
     (by norm_num [betOpenState])
     (by norm_num)⟩

/-! Claim C7: the spec's worked spread example.  With home line −3.5 and final
score 24–20, the code computes `home_covered = (24 + (−3.5)) > 20`, i.e.
`20.5 > 20`, which is TRUE — so the home pick wins and the away pick loses,
the opposite of what the claim (and the spec's example) states. -/

/-- The spec example scenario: game with spread −3.5, one pending home spread
bet and one pending away spread bet of stake 10 at 1.91 odds each. -/
def spreadExampleState : DBState :=
  ⟨[⟨"u1", "User One", 300, true⟩], [], [], [], [],
    [⟨1, "H", "A", 10, 3/2, 2, -(7/2), 44, "scheduled", 0, 0⟩],
    [⟨1, "u1", 1, "spread", "home", 10, 191/10, 191/100, "pending"⟩,
     ⟨2, "u1", 1, "spread", "away", 10, 191/10, 191/100, "pending"⟩], [], [], 3, 1, 1⟩

/-- C7 counterexample: settling the −3.5-spread game at 24–20 marks the home
pick `won` and the away pick `lost`, refuting the claimed `[lost, won]`
outcome. -/
theorem spread_example_home_wins_not_loses :
    ((simulate_game_result 1 24 20 spreadExampleState).2.userBets.map Bet.status)
      = ["won", "lost"]
    ∧ ¬ (((simulate_game_result 1 24 20 spreadExampleState).2.userBets.map Bet.status)
      = ["lost", "won"]) := by
  have h1 : ((simulate_game_result 1 24 20 spreadExampleState).2.userBets.map Bet.status)
      = ["won", "lost"] := by
    norm_num [simulate_game_result, gameSet, settleCore, spreadExampleState, settleBetStep, legWon,
      updateBalance, joinedLegs, dedupParlays, completeParlayStep, settleLegStep,
      List.find?, List.filter, List.filterMap, List.foldl]
    simp
  refine ⟨h1, ?_⟩
  rw [h1]
  simp

/-- C7 amended: with home line −3.5 and final score 24–20 the code evaluates
`homeScore + spread = 20.5 > 20` as TRUE, so the home pick is settled `won`
(and its payout credited) and the away pick is settled `lost`. -/
theorem spread_example_settlement :
    ((simulate_game_result 1 24 20 spreadExampleState).2.userBets.map Bet.status)
      = ["won", "lost"]
    ∧ balanceOf (simulate_game_result 1 24 20 spreadExampleState).2 "u1"
      = 300 + 191/10 := by
  constructor <;>
  · norm_num [simulate_game_result, gameSet, settleCore, spreadExampleState, settleBetStep, legWon,
      updateBalance, joinedLegs, dedupParlays, completeParlayStep, settleLegStep,
      balanceOf, findUser, List.find?, List.filter, List.filterMap, List.foldl]
    try simp

/-! Claim C6: push handling.  The settlement code has no Push branch at all:
`home_covered` and `over_hit` are strict comparisons, so an exactly-met line
makes the home/over side lose outright (and the away/under side win with full
payout); no stake is ever refunded and no bet is ever marked `push`. -/

/-- A game whose integer spread −4 is exactly met by the final score 24–20,
with a single pending home spread bet. -/
def pushScenarioState : DBState :=
  ⟨[⟨"u1", "User One", 300, true⟩], [], [], [], [],
    [⟨1, "H", "A", 10, 3/2, 2, -4, 44, "scheduled", 0, 0⟩],
    [⟨1, "u1", 1, "spread", "home", 10, 191/10, 191/100, "pending"⟩], [], [], 2, 1, 1⟩

/-- C6 counterexample: with `homeScore + spread = awayScore` (24 − 4 = 20) the
pending home spread bet is settled `lost`, not `push`, and the wallet is not
refunded the stake. -/
theorem exact_line_is_not_push :
    ((simulate_game_result 1 24 20 pushScenarioState).2.userBets.map Bet.status)
      = ["lost"]
    ∧ ¬ (((simulate_game_result 1 24 20 pushScenarioState).2.userBets.map Bet.status)
      = ["push"])
    ∧ balanceOf (simulate_game_result 1 24 20 pushScenarioState).2 "u1" = 300 := by
  have h1 : ((simulate_game_result 1 24 20 pushScenarioState).2.userBets.map Bet.status)
      = ["lost"] := by
    norm_num [simulate_game_result, gameSet, settleCore, pushScenarioState, settleBetStep, legWon,
      updateBalance, joinedLegs, dedupParlays, completeParlayStep, settleLegStep,
      List.find?, List.filter, List.filterMap, List.foldl]
    simp
  refine ⟨h1, by rw [h1]; simp, ?_⟩
  norm_num [simulate_game_result, gameSet, settleCore, pushScenarioState, settleBetStep, legWon,
    updateBalance, joinedLegs, dedupParlays, completeParlayStep, settleLegStep,
    balanceOf, findUser, List.find?, List.filter, List.filterMap, List.foldl]

/-- A symbolic exact-tie scenario: final score `h`–`a`, spread `a − h` (so the
spread line is exactly met) and total line `h + a` (so the total is exactly
met), with four pending bets: spread home, spread away, over, under. -/
def tieState (h a : Int) (w p1 p2 p3 p4 : ℚ) : DBState :=
  ⟨[⟨"u1", "User One", w, true⟩], [], [], [], [],
    [⟨1, "H", "A", 10, 3/2, 2, (a : ℚ) - (h : ℚ), ((h + a : Int) : ℚ), "scheduled", 0, 0⟩],
    [⟨1, "u1", 1, "spread", "home", 10, p1, 191/100, "pending"⟩,
     ⟨2, "u1", 1, "spread", "away", 10, p2, 191/100, "pending"⟩,
     ⟨3, "u1", 1, "over_under", "over", 10, p3, 191/100, "pending"⟩,
     ⟨4, "u1", 1, "over_under", "under", 10, p4, 191/100, "pending"⟩], [], [], 5, 1, 1⟩

/-- C6 amended: when the final score exactly meets the spread line
(`homeScore + spread = awayScore`) or the total line
(`homeScore + awayScore = totalLine`), settlement does not push: the home and
over picks are settled `lost` with no credit, and the away and under picks are
settled `won` and credited their full potential payout — there is no Push
status and no stake refund. -/
theorem exact_line_settlement (h a : Int) (w p1 p2 p3 p4 : ℚ) :
    ((simulate_game_result 1 h a (tieState h a w p1 p2 p3 p4)).2.userBets.map Bet.status)
      = ["lost", "won", "lost", "won"]
    ∧ balanceOf (simulate_game_result 1 h a (tieState h a w p1 p2 p3 p4)).2 "u1"
      = w + p2 + p4 := by
  have hcov : ¬ ((a : ℚ) < (h : ℚ) + ((a : ℚ) - (h : ℚ))) := by
    intro hc
    rw [add_sub_cancel] at hc
    exact lt_irrefl _ hc
  have hover : ¬ (((h + a : Int) : ℚ) < ((h + a : Int) : ℚ)) := lt_irrefl _
  constructor <;>
  · norm_num [simulate_game_result, gameSet, settleCore, tieState, settleBetStep, legWon,
      updateBalance, joinedLegs, dedupParlays, completeParlayStep, settleLegStep,
      balanceOf, findUser, hcov, hover,
      List.find?, List.filter, List.filterMap, List.foldl]
    try simp [hcov, hover]

/-! Claim C8: average cost basis.  The sell branch computes
`AVG(price)` over prior Buy rows, but Python's truthiness test
(`if purchase_result and purchase_result[0]`) also treats an average of
exactly 0 as "missing", falling back to the sale price.  So the fallback
fires not only when no prior Buy row exists but also when the prior average
is 0. -/

/-- C8 counterexample: after a prior Buy at price 0 (accepted, since the
balance check `300 < 0` fails), a sell at 30 records cost basis 30 and
profit/loss 0 — not the arithmetic mean 0 of the existing prior Buy rows and
profit 30 the claim requires. -/
theorem cost_basis_zero_average_fallback :
    ((execute_transaction "u1" "Player" "A" "sell" 30
        (execute_transaction "u1" "Player" "A" "buy" 0 plainState).2).2.transactions)
      = [⟨"u1", "Buy", "Player", "A", 0, 1, 0, 0⟩,
         ⟨"u1", "Sell", "Player", "A", 30, 1, 30, 0⟩]
    ∧ (((execute_transaction "u1" "Player" "A" "buy" 0 plainState).2.transactions.filter
          (fun t => t.userId == "u1" && t.assetType == "Player" &&
            t.assetName == "A" && t.txnType == "Buy")).map Txn.price) = [0]
    ∧ (30 : ℚ) ≠ 0 := by
  refine ⟨?_, ?_, by norm_num⟩ <;>
  · norm_num [execute_transaction, demoEnsure, plainState, updateBalance,
      findHolding, hmatch, setQtyFirst, mapQtyFirst, List.find?, List.filter,
      List.foldl]
    try simp

/-- The example state for the cost-basis rule: holding of 2 shares of asset A
and two prior Buy rows at prices 10 and 20. -/
def basisState : DBState :=
  ⟨[⟨"u1", "User One", 300, true⟩], [⟨"u1", "Player", "A", 2⟩],
    [⟨"u1", "Buy", "Player", "A", 10, 1, 10, 0⟩,
     ⟨"u1", "Buy", "Player", "A", 20, 1, 20, 0⟩], [], [], [], [], [], [], 1, 1, 1⟩

/-- C8 amended: on every accepted sell the recorded cost basis is the
arithmetic mean of the unit prices of the user's prior Buy rows for the asset,
falling back to the current sale price when no prior Buy row exists OR when
that mean is exactly 0 (a Python-truthiness artifact); the recorded
profit/loss is the sale price minus that basis.  In particular, selling one
share at 30 after two one-share Buys at 10 and 20 records
profit/loss 30 − 15 = 15. -/
theorem sell_cost_basis (uid ty nm : String) (price : ℚ) (s : DBState)
    (u : UserRow) (h : Holding)
    (hu : s.users.find? (fun x => x.id == uid) = some u)
    (hh : findHolding s uid ty nm = some h) (hq : ¬ h.quantity < 1) :
    (let priorBuys := (s.transactions.filter (fun t =>
        t.userId == uid && t.assetType == ty &&
        t.assetName == nm && t.txnType == "Buy")).map Txn.price;
     let basis := if priorBuys.isEmpty ∨ priorBuys.sum / priorBuys.length = 0
        then price else priorBuys.sum / priorBuys.length;
     (execute_transaction uid ty nm "sell" price s).1.success = true
     ∧ (execute_transaction uid ty nm "sell" price s).2.transactions
        = s.transactions ++ [⟨uid, "Sell", ty, nm, price, 1, basis, price - basis⟩])
    ∧ ((execute_transaction "u1" "Player" "A" "sell" 30
        (execute_transaction "u1" "Player" "A" "buy" 20
          (execute_transaction "u1" "Player" "A" "buy" 10 plainState).2).2).2.transactions.map
        Txn.profitLoss) = [0, 0, 15] := by
  constructor
  · have hds : (if uid == "demo_user_001" then demoEnsure s else s) = s :=
      demo_skip uid s (by simp [hu])
    simp only [execute_transaction, hds, hu, hh, String.reduceBEq, Bool.false_eq_true,
      ite_false, ite_true, if_neg hq]
    refine ⟨trivial, ?_⟩
    split <;>
    · by_cases hE : ((s.transactions.filter (fun t =>
          t.userId == uid && t.assetType == ty &&
          t.assetName == nm && t.txnType == "Buy")).map Txn.price).isEmpty
      · simp [hE, updateBalance]
      · by_cases hZ : ((s.transactions.filter (fun t =>
            t.userId == uid && t.assetType == ty &&
            t.assetName == nm && t.txnType == "Buy")).map Txn.price).sum /
              ((s.transactions.filter (fun t =>
                t.userId == uid && t.assetType == ty &&
                t.assetName == nm && t.txnType == "Buy")).map Txn.price).length = 0
        · simp [hE, hZ, updateBalance]
        · simp [hE, hZ, updateBalance]
  · norm_num [execute_transaction, demoEnsure, plainState, updateBalance,
      findHolding, hmatch, setQtyFirst, mapQtyFirst, List.find?, List.filter,
      List.foldl]
    try simp

theorem sell_cost_basis_witness :
    (let priorBuys := ((basisState.transactions.filter (fun t =>
        t.userId == "u1" && t.assetType == "Player" &&
        t.assetName == "A" && t.txnType == "Buy")).map Txn.price);
     let basis := if priorBuys.isEmpty ∨ priorBuys.sum / priorBuys.length = 0
        then (30 : ℚ) else priorBuys.sum / priorBuys.length;
     (execute_transaction "u1" "Player" "A" "sell" 30 basisState).1.success = true
     ∧ (execute_transaction "u1" "Player" "A" "sell" 30 basisState).2.transactions
        = basisState.transactions
          ++ [⟨"u1", "Sell", "Player", "A", 30, 1, basis, 30 - basis⟩])
    ∧ ((execute_transaction "u1" "Player" "A" "sell" 30
        (execute_transaction "u1" "Player" "A" "buy" 20
          (execute_transaction "u1" "Player" "A" "buy" 10 plainState).2).2).2.transactions.map
        Txn.profitLoss) = [0, 0, 15] :=
  sell_cost_basis "u1" "Player" "A" 30 basisState
    ⟨"u1", "User One", 300, true⟩ ⟨"u1", "Player", "A", 2⟩
    (by simp [basisState, List.find?])
    (by simp [findHolding, basisState, List.find?, hmatch])
    (by norm_num)

/-! Claim C3: exactly-once settlement.  `simulate_game_result` fetches the
game with no status filter and never rejects a completed game: a second call
succeeds and overwrites the final scores with the newly drawn ones. -/

/-- A state whose game 1 is already completed with final score 10–5. -/
def settledState : DBState :=
  ⟨[⟨"u1", "User One", 300, true⟩], [], [], [], [],
    [⟨1, "H", "A", 10, 3/2, 2, -(7/2), 44, "completed", 10, 5⟩], [], [], [], 1, 1, 1⟩

/-- C3 counterexample: calling the settlement operation on the already
completed game 1 does not fail with an already-settled error — it reports
success and overwrites the stored final score (10 becomes 7). -/
theorem resettle_completed_game_succeeds :
    (simulate_game_result 1 7 3 settledState).1.success = true
    ∧ (simulate_game_result 1 7 3 settledState).2.upcomingGames.map Game.homeScore
      = [7]
    ∧ settledState.upcomingGames.map Game.homeScore = [10] := by
  refine ⟨?_, ?_, by simp [settledState]⟩ <;>
  · norm_num [simulate_game_result, gameSet, settleCore, settledState, settleBetStep, legWon,
      updateBalance, joinedLegs, dedupParlays, completeParlayStep, settleLegStep,
      List.find?, List.filter, List.filterMap, List.foldl]
    try simp

/-! Claim C5: parlay leg and payout rules. -/

/-- Two-game scenario for the parlay rules: one verified user with balance
`B`, two scheduled future games with moneyline home odds `o1`, `o2`. -/
def parlayScenario (B o1 o2 : ℚ) : DBState :=
  ⟨[⟨"u1", "User One", B, true⟩], [], [], [], [],
    [⟨1, "H1", "A1", 10, o1, 2, 0, 44, "scheduled", 0, 0⟩,
     ⟨2, "H2", "A2", 10, o2, 2, 0, 44, "scheduled", 0, 0⟩], [], [], [], 1, 1, 1⟩

/-- The scenario state after creating a two-leg moneyline-home parlay with
stake `st`. -/
def parlayCreated (B st o1 o2 : ℚ) : DBState :=
  (create_parlay_bet "u1" [⟨1, "moneyline", "home"⟩, ⟨2, "moneyline", "home"⟩] st 0
    (parlayScenario B o1 o2)).2

/-- The scenario state after game 1 settles with a home win (24–20): the
first leg is won, the second still pending. -/
def parlayAfterG1 (B st o1 o2 : ℚ) : DBState :=
  (simulate_game_result 1 24 20 (parlayCreated B st o1 o2)).2

/-- C5: the parlay's potential payout is locked at creation as
`round2(stake × o1 × o2)`; after game 1 settles with a won leg the parlay is
`[won, pending]` and still pending with no credit; if game 2 then loses, the
parlay is lost immediately and nothing is paid; if game 2 wins, the parlay is
won and the wallet is credited the locked payout `stake × Π(odds)`. -/
theorem parlay_leg_rules (B st o1 o2 : ℚ) (hB : ¬ B < st) :
    ((parlayCreated B st o1 o2).parlays.map Parlay.potentialPayout
        = [round2 (st * (o1 * o2))])
    ∧ ((parlayAfterG1 B st o1 o2).parlayBets.map ParlayBet.status = ["won", "pending"]
      ∧ (parlayAfterG1 B st o1 o2).parlays.map Parlay.status = ["pending"]
      ∧ balanceOf (parlayAfterG1 B st o1 o2) "u1" = B - st)
    ∧ (((simulate_game_result 2 20 24 (parlayAfterG1 B st o1 o2)).2.parlays.map Parlay.status
        = ["lost"])
      ∧ balanceOf (simulate_game_result 2 20 24 (parlayAfterG1 B st o1 o2)).2 "u1" = B - st)
    ∧ (((simulate_game_result 2 24 20 (parlayAfterG1 B st o1 o2)).2.parlays.map Parlay.status
        = ["won"])
      ∧ balanceOf (simulate_game_result 2 24 20 (parlayAfterG1 B st o1 o2)).2 "u1"
        = B - st + round2 (st * (o1 * o2))) := by
  refine ⟨?_, ⟨?_, ?_, ?_⟩, ⟨?_, ?_⟩, ⟨?_, ?_⟩⟩ <;>
  · norm_num [parlayScenario, parlayCreated, parlayAfterG1, create_parlay_bet,
      is_user_verified_adult, legOddsList, findOpenGame, betOdds, mkParlayBets,
      round2, simulate_game_result, gameSet, settleCore, settleBetStep, legWon, updateBalance,
      joinedLegs, dedupParlays, completeParlayStep, settleLegStep, balanceOf,
      findUser, hB, List.find?, List.filter, List.filterMap, List.foldl]
    try simp [mkParlayBets]

theorem parlay_leg_rules_witness :
    ((parlayCreated 100 10 (3/2) 2).parlays.map Parlay.potentialPayout
        = [round2 (10 * (3/2 * 2))])
    ∧ ((parlayAfterG1 100 10 (3/2) 2).parlayBets.map ParlayBet.status = ["won", "pending"]
      ∧ (parlayAfterG1 100 10 (3/2) 2).parlays.map Parlay.status = ["pending"]
      ∧ balanceOf (parlayAfterG1 100 10 (3/2) 2) "u1" = 100 - 10)
    ∧ (((simulate_game_result 2 20 24 (parlayAfterG1 100 10 (3/2) 2)).2.parlays.map Parlay.status
        = ["lost"])
      ∧ balanceOf (simulate_game_result 2 20 24 (parlayAfterG1 100 10 (3/2) 2)).2 "u1" = 100 - 10)
    ∧ (((simulate_game_result 2 24 20 (parlayAfterG1 100 10 (3/2) 2)).2.parlays.map Parlay.status
        = ["won"])
      ∧ balanceOf (simulate_game_result 2 24 20 (parlayAfterG1 100 10 (3/2) 2)).2 "u1"
        = 100 - 10 + round2 (10 * (3/2 * 2))) :=
  parlay_leg_rules 100 10 (3/2) 2 (by norm_num)

/-! Machinery for claim C3: cumulative characterisation of the settlement
folds, used to show a second settlement of the same game has nothing left to
process. -/

/-- The per-iteration bet-status write of the single-bet settlement loop. -/
def setBetW (hw hc oh : Bool) (b : Bet) (b2 : Bet) : Bet :=
  if b2.id == b.id then
    { b2 with status := if legWon hw hc oh b.betType b.betPick then "won" else "lost" }
  else b2

/-- Cumulative effect of the single-bet settlement loop on one bet row. -/
def betFold (hw hc oh : Bool) : List Bet → Bet → Bet
  | [], b2 => b2
  | b :: bs, b2 => betFold hw hc oh bs (setBetW hw hc oh b b2)

theorem settleBetStep_foldl_state (hw hc oh : Bool) (bs : List Bet) (st : DBState) :
    (bs.foldl (settleBetStep hw hc oh) st).userBets
        = st.userBets.map (betFold hw hc oh bs)
    ∧ (bs.foldl (settleBetStep hw hc oh) st).parlayBets = st.parlayBets
    ∧ (bs.foldl (settleBetStep hw hc oh) st).parlays = st.parlays
    ∧ (bs.foldl (settleBetStep hw hc oh) st).upcomingGames = st.upcomingGames := by
  induction bs generalizing st with
  | nil =>
    refine ⟨?_, rfl, rfl, rfl⟩
    simp [betFold]
  | cons b bs ih =>
    obtain ⟨h1, h2, h3, h4⟩ : (settleBetStep hw hc oh st b).userBets
          = st.userBets.map (setBetW hw hc oh b)
        ∧ (settleBetStep hw hc oh st b).parlayBets = st.parlayBets
        ∧ (settleBetStep hw hc oh st b).parlays = st.parlays
        ∧ (settleBetStep hw hc oh st b).upcomingGames = st.upcomingGames := by
      cases hb : legWon hw hc oh b.betType b.betPick <;>
        refine ⟨?_, ?_, ?_, ?_⟩ <;>
          simp [settleBetStep, setBetW, hb, updateBalance]
    obtain ⟨i1, i2, i3, i4⟩ := ih (settleBetStep hw hc oh st b)
    refine ⟨?_, ?_, ?_, ?_⟩
    · rw [List.foldl_cons, i1, h1, List.map_map]
      exact List.map_congr_left (fun a _ => by simp [betFold, Function.comp])
    · rw [List.foldl_cons, i2, h2]
    · rw [List.foldl_cons, i3, h3]
    · rw [List.foldl_cons, i4, h4]

theorem betFold_fields (hw hc oh : Bool) (bs : List Bet) (b : Bet) :
    (betFold hw hc oh bs b).id = b.id ∧ (betFold hw hc oh bs b).gameId = b.gameId := by
  induction bs generalizing b with
  | nil => exact ⟨rfl, rfl⟩
  | cons b0 bs ih =>
    have hs : (setBetW hw hc oh b0 b).id = b.id ∧ (setBetW hw hc oh b0 b).gameId = b.gameId := by
      unfold setBetW
      split <;> exact ⟨rfl, rfl⟩
    obtain ⟨i1, i2⟩ := ih (setBetW hw hc oh b0 b)
    exact ⟨by rw [betFold, i1, hs.1], by rw [betFold, i2, hs.2]⟩

theorem betFold_status (hw hc oh : Bool) (bs : List Bet) (b : Bet) :
    (betFold hw hc oh bs b).status = b.status
    ∨ (betFold hw hc oh bs b).status = "won"
    ∨ (betFold hw hc oh bs b).status = "lost" := by
  induction bs generalizing b with
  | nil => exact Or.inl rfl
  | cons b0 bs ih =>
    have hs : (setBetW hw hc oh b0 b).status = b.status
        ∨ (setBetW hw hc oh b0 b).status = "won"
        ∨ (setBetW hw hc oh b0 b).status = "lost" := by
      unfold setBetW
      split
      · split
        · exact Or.inr (Or.inl rfl)
        · exact Or.inr (Or.inr rfl)
      · exact Or.inl rfl
    rcases ih (setBetW hw hc oh b0 b) with h | h | h
    · rw [betFold, h]
      exact hs
    · exact Or.inr (Or.inl (by rw [betFold, h]))
    · exact Or.inr (Or.inr (by rw [betFold, h]))

theorem betFold_processed (hw hc oh : Bool) (bs : List Bet) (b : Bet)
    (hmem : b.id ∈ bs.map Bet.id) :
    (betFold hw hc oh bs b).status = "won"
    ∨ (betFold hw hc oh bs b).status = "lost" := by
  induction bs generalizing b with
  | nil => simp at hmem
  | cons b0 bs ih =>
    simp only [List.map_cons, List.mem_cons] at hmem
    rcases hmem with heq | hmem
    · have hset : (setBetW hw hc oh b0 b).status = "won"
          ∨ (setBetW hw hc oh b0 b).status = "lost" := by
        unfold setBetW
        rw [if_pos (by simpa using heq)]
        split
        · exact Or.inl rfl
        · exact Or.inr rfl
      rcases betFold_status hw hc oh bs (setBetW hw hc oh b0 b) with h | h | h
      · rw [betFold, h]
        exact hset
      · exact Or.inl (by rw [betFold, h])
      · exact Or.inr (by rw [betFold, h])
    · have hid : (setBetW hw hc oh b0 b).id = b.id := by
        unfold setBetW
        split <;> rfl
      exact ih (setBetW hw hc oh b0 b) (by rw [hid]; exact hmem)

/-- The per-iteration leg-status write of the parlay-leg settlement loop. -/
def setLegW (hw hc oh : Bool) (pr : ParlayBet × Parlay) (pb2 : ParlayBet) : ParlayBet :=
  if pb2.id == pr.1.id then
    { pb2 with status := if legWon hw hc oh pr.1.betType pr.1.betPick then "won" else "lost" }
  else pb2

/-- Cumulative effect of the parlay-leg settlement loop on one leg row. -/
def legFold (hw hc oh : Bool) : List (ParlayBet × Parlay) → ParlayBet → ParlayBet
  | [], pb2 => pb2
  | pr :: prs, pb2 => legFold hw hc oh prs (setLegW hw hc oh pr pb2)

theorem settleLegStep_foldl_state (hw hc oh : Bool)
    (prs : List (ParlayBet × Parlay)) (st : DBState) :
    (prs.foldl (settleLegStep hw hc oh) st).parlayBets
        = st.parlayBets.map (legFold hw hc oh prs)
    ∧ (prs.foldl (settleLegStep hw hc oh) st).userBets = st.userBets
    ∧ (prs.foldl (settleLegStep hw hc oh) st).parlays = st.parlays
    ∧ (prs.foldl (settleLegStep hw hc oh) st).upcomingGames = st.upcomingGames
    ∧ (prs.foldl (settleLegStep hw hc oh) st).users = st.users := by
  induction prs generalizing st with
  | nil =>
    refine ⟨?_, rfl, rfl, rfl, rfl⟩
    simp [legFold]
  | cons pr prs ih =>
    obtain ⟨i1, i2, i3, i4, i5⟩ := ih (settleLegStep hw hc oh st pr)
    refine ⟨?_, ?_, ?_, ?_, ?_⟩
    · rw [List.foldl_cons, i1]
      have hb : (settleLegStep hw hc oh st pr).parlayBets
          = st.parlayBets.map (setLegW hw hc oh pr) := rfl
      rw [hb, List.map_map]
      exact List.map_congr_left (fun a _ => by simp [legFold, Function.comp])
    · rw [List.foldl_cons, i2]
      rfl
    · rw [List.foldl_cons, i3]
      rfl
    · rw [List.foldl_cons, i4]
      rfl
    · rw [List.foldl_cons, i5]
      rfl

theorem legFold_fields (hw hc oh : Bool) (prs : List (ParlayBet × Parlay))
    (pb : ParlayBet) :
    (legFold hw hc oh prs pb).id = pb.id
    ∧ (legFold hw hc oh prs pb).gameId = pb.gameId
    ∧ (legFold hw hc oh prs pb).parlayId = pb.parlayId := by
  induction prs generalizing pb with
  | nil => exact ⟨rfl, rfl, rfl⟩
  | cons pr prs ih =>
    have hs : (setLegW hw hc oh pr pb).id = pb.id
        ∧ (setLegW hw hc oh pr pb).gameId = pb.gameId
        ∧ (setLegW hw hc oh pr pb).parlayId = pb.parlayId := by
      unfold setLegW
      split <;> exact ⟨rfl, rfl, rfl⟩
    obtain ⟨i1, i2, i3⟩ := ih (setLegW hw hc oh pr pb)
    exact ⟨by rw [legFold, i1, hs.1], by rw [legFold, i2, hs.2.1],
      by rw [legFold, i3, hs.2.2]⟩

theorem legFold_status (hw hc oh : Bool) (prs : List (ParlayBet × Parlay))
    (pb : ParlayBet) :
    (legFold hw hc oh prs pb).status = pb.status
    ∨ (legFold hw hc oh prs pb).status = "won"
    ∨ (legFold hw hc oh prs pb).status = "lost" := by
  induction prs generalizing pb with
  | nil => exact Or.inl rfl
  | cons pr prs ih =>
    have hs : (setLegW hw hc oh pr pb).status = pb.status
        ∨ (setLegW hw hc oh pr pb).status = "won"
        ∨ (setLegW hw hc oh pr pb).status = "lost" := by
      unfold setLegW
      split
      · split
        · exact Or.inr (Or.inl rfl)
        · exact Or.inr (Or.inr rfl)
      · exact Or.inl rfl
    rcases ih (setLegW hw hc oh pr pb) with h | h | h
    · rw [legFold, h]
      exact hs
    · exact Or.inr (Or.inl (by rw [legFold, h]))
    · exact Or.inr (Or.inr (by rw [legFold, h]))

theorem legFold_processed (hw hc oh : Bool) (prs : List (ParlayBet × Parlay))
    (pb : ParlayBet) (hmem : pb.id ∈ prs.map (fun pr => pr.1.id)) :
    (legFold hw hc oh prs pb).status = "won"
    ∨ (legFold hw hc oh prs pb).status = "lost" := by
  induction prs generalizing pb with
  | nil => simp at hmem
  | cons pr prs ih =>
    simp only [List.map_cons, List.mem_cons] at hmem
    rcases hmem with heq | hmem
    · have hset : (setLegW hw hc oh pr pb).status = "won"
          ∨ (setLegW hw hc oh pr pb).status = "lost" := by
        unfold setLegW
        rw [if_pos (by simpa using heq)]
        split
        · exact Or.inl rfl
        · exact Or.inr rfl
      rcases legFold_status hw hc oh prs (setLegW hw hc oh pr pb) with h | h | h
      · rw [legFold, h]
        exact hset
      · exact Or.inl (by rw [legFold, h])
      · exact Or.inr (by rw [legFold, h])
    · have hid : (setLegW hw hc oh pr pb).id = pb.id := by
        unfold setLegW
        split <;> rfl
      exact ih (setLegW hw hc oh pr pb) (by rw [hid]; exact hmem)

theorem completeParlayStep_state (st : DBState) (q : Parlay) :
    (completeParlayStep st q).userBets = st.userBets
    ∧ (completeParlayStep st q).parlayBets = st.parlayBets
    ∧ (completeParlayStep st q).upcomingGames = st.upcomingGames
    ∧ ∃ m : Parlay → Parlay, (∀ p, (m p).id = p.id)
        ∧ (∀ p, (m p).status = p.status ∨ (m p).status = "won" ∨ (m p).status = "lost")
        ∧ (completeParlayStep st q).parlays = st.parlays.map m := by
  unfold completeParlayStep
  by_cases h1 : (((st.parlayBets.filter (fun pb =>
      pb.parlayId == q.id && pb.status == "pending")).length == 0) = true)
  · by_cases h2 : (((st.parlayBets.filter (fun pb =>
        pb.parlayId == q.id && pb.status == "lost")).length == 0) = true)
    · simp only [h1, h2, ite_true]
      refine ⟨by trivial, by trivial, by trivial,
        ⟨fun p2 => if p2.id == q.id then { p2 with status := "won" } else p2,
         fun p => by dsimp only; split <;> rfl,
         fun p => by
           dsimp only
           split
           · exact Or.inr (Or.inl rfl)
           · exact Or.inl rfl,
         rfl⟩⟩
    · simp only [h1, ite_true, if_neg h2]
      refine ⟨by trivial, by trivial, by trivial,
        ⟨fun p2 => if p2.id == q.id then { p2 with status := "lost" } else p2,
         fun p => by dsimp only; split <;> rfl,
         fun p => by
           dsimp only
           split
           · exact Or.inr (Or.inr rfl)
           · exact Or.inl rfl,
         rfl⟩⟩
  · simp only [if_neg h1]
    exact ⟨by trivial, by trivial, by trivial, ⟨fun p2 => p2, fun p => rfl,
      fun p => Or.inl rfl, by rw [List.map_id']⟩⟩

theorem completeParlayStep_foldl_state (ps : List Parlay) (st : DBState) :
    (ps.foldl completeParlayStep st).userBets = st.userBets
    ∧ (ps.foldl completeParlayStep st).parlayBets = st.parlayBets
    ∧ (ps.foldl completeParlayStep st).upcomingGames = st.upcomingGames := by
  induction ps generalizing st with
  | nil => exact ⟨rfl, rfl, rfl⟩
  | cons q ps ih =>
    obtain ⟨s1, s2, s3, -⟩ := completeParlayStep_state st q
    obtain ⟨i1, i2, i3⟩ := ih (completeParlayStep st q)
    exact ⟨by rw [List.foldl_cons, i1, s1], by rw [List.foldl_cons, i2, s2],
      by rw [List.foldl_cons, i3, s3]⟩

theorem completeParlayStep_foldl_find? (ps : List Parlay) (st : DBState) (pid : Nat)
    (h : ∀ p, st.parlays.find? (fun x => x.id == pid) = some p → ¬ p.status = "pending") :
    ∀ p2, (ps.foldl completeParlayStep st).parlays.find? (fun x => x.id == pid) = some p2 →
      ¬ p2.status = "pending" := by
  induction ps generalizing st with
  | nil => exact h
  | cons q ps ih =>
    rw [List.foldl_cons]
    apply ih
    obtain ⟨-, -, -, m, hmid, hmst, hmp⟩ := completeParlayStep_state st q
    intro p hp
    rw [hmp, find?_map_comm _ m (fun x => by simp [hmid x])] at hp
    cases hfind : st.parlays.find? (fun x => x.id == pid) with
    | none =>
      rw [hfind] at hp
      exact absurd hp (by simp)
    | some p0 =>
      rw [hfind] at hp
      simp only [Option.map_some', Option.some.injEq] at hp
      have hstat := hmst p0
      rw [hp] at hstat
      rcases hstat with hh | hh | hh
      · rw [hh]
        exact h p0 hfind
      · rw [hh]; simp
      · rw [hh]; simp

theorem simulate_game_result_run (gid : Nat) (hs as : Int) (s : DBState)
    (game : Game) (hg : s.upcomingGames.find? (fun g => g.id == gid) = some game) :
    simulate_game_result gid hs as s
      = (⟨true, "Game simulated successfully"⟩,
         settleCore gid (decide (as < hs))
           (decide ((as : ℚ) < (hs : ℚ) + game.spread))
           (decide (game.overUnder < ((hs + as : Int) : ℚ)))
           (gameSet gid hs as s)) := by
  simp only [simulate_game_result, hg]

theorem joinedLegs_congr (s t : DBState) (gid : Nat)
    (hpb : s.parlayBets = t.parlayBets) (hp : s.parlays = t.parlays) :
    joinedLegs s gid = joinedLegs t gid := by
  unfold joinedLegs
  rw [hpb, hp]

theorem settleCore_state (gid : Nat) (hw hc oh : Bool) (s1 : DBState) :
    (settleCore gid hw hc oh s1).userBets
      = s1.userBets.map (betFold hw hc oh
          (s1.userBets.filter (fun b => b.gameId == gid && b.status == "pending")))
    ∧ (settleCore gid hw hc oh s1).parlayBets
      = s1.parlayBets.map (legFold hw hc oh (joinedLegs s1 gid))
    ∧ (settleCore gid hw hc oh s1).upcomingGames = s1.upcomingGames := by
  unfold settleCore
  obtain ⟨a1, a2, a3, a4⟩ := settleBetStep_foldl_state hw hc oh
    (s1.userBets.filter (fun b => b.gameId == gid && b.status == "pending")) s1
  have hJ : joinedLegs ((s1.userBets.filter (fun b =>
        b.gameId == gid && b.status == "pending")).foldl (settleBetStep hw hc oh) s1) gid
      = joinedLegs s1 gid := joinedLegs_congr _ _ _ a2 a3
  obtain ⟨b1, b2, b3, b4, b5⟩ := settleLegStep_foldl_state hw hc oh
    (joinedLegs ((s1.userBets.filter (fun b =>
      b.gameId == gid && b.status == "pending")).foldl (settleBetStep hw hc oh) s1) gid)
    ((s1.userBets.filter (fun b =>
      b.gameId == gid && b.status == "pending")).foldl (settleBetStep hw hc oh) s1)
  obtain ⟨c1, c2, c3⟩ := completeParlayStep_foldl_state
    (dedupParlays (joinedLegs ((s1.userBets.filter (fun b =>
      b.gameId == gid && b.status == "pending")).foldl (settleBetStep hw hc oh) s1) gid))
    ((joinedLegs ((s1.userBets.filter (fun b =>
        b.gameId == gid && b.status == "pending")).foldl (settleBetStep hw hc oh) s1) gid).foldl
      (settleLegStep hw hc oh)
      ((s1.userBets.filter (fun b =>
        b.gameId == gid && b.status == "pending")).foldl (settleBetStep hw hc oh) s1))
  refine ⟨?_, ?_, ?_⟩
  · rw [c1, b2, a1]
  · rw [c2, b1, a2, hJ]
  · rw [c3, b4, a4]

theorem settleCore_parlays_find? (gid : Nat) (hw hc oh : Bool) (s1 : DBState)
    (pid : Nat)
    (h : ∀ p, s1.parlays.find? (fun x => x.id == pid) = some p → ¬ p.status = "pending") :
    ∀ p2, (settleCore gid hw hc oh s1).parlays.find? (fun x => x.id == pid) = some p2 →
      ¬ p2.status = "pending" := by
  unfold settleCore
  obtain ⟨a1, a2, a3, a4⟩ := settleBetStep_foldl_state hw hc oh
    (s1.userBets.filter (fun b => b.gameId == gid && b.status == "pending")) s1
  obtain ⟨b1, b2, b3, b4, b5⟩ := settleLegStep_foldl_state hw hc oh
    (joinedLegs ((s1.userBets.filter (fun b =>
      b.gameId == gid && b.status == "pending")).foldl (settleBetStep hw hc oh) s1) gid)
    ((s1.userBets.filter (fun b =>
      b.gameId == gid && b.status == "pending")).foldl (settleBetStep hw hc oh) s1)
  apply completeParlayStep_foldl_find?
  intro p hp
  rw [b3, a3] at hp
  exact h p hp

theorem mem_joinedLegs (s : DBState) (gid : Nat) (pb : ParlayBet) (p : Parlay)
    (hmem : pb ∈ s.parlayBets) (hgid : pb.gameId = gid) (hst : pb.status = "pending")
    (hfind : s.parlays.find? (fun x => x.id == pb.parlayId) = some p)
    (hps : p.status = "pending") :
    (pb, p) ∈ joinedLegs s gid := by
  unfold joinedLegs
  rw [List.mem_filterMap]
  exact ⟨pb, hmem, by simp [hgid, hst, hfind, hps]⟩

theorem settleCore_no_pending (gid : Nat) (hw hc oh : Bool) (s1 : DBState) :
    (∀ b ∈ (settleCore gid hw hc oh s1).userBets,
      ¬ (b.gameId = gid ∧ b.status = "pending"))
    ∧ (∀ pb ∈ (settleCore gid hw hc oh s1).parlayBets, pb.gameId = gid →
        pb.status = "pending" →
        ∀ p, (settleCore gid hw hc oh s1).parlays.find?
            (fun x => x.id == pb.parlayId) = some p →
          ¬ p.status = "pending") := by
  obtain ⟨sc1, sc2, -⟩ := settleCore_state gid hw hc oh s1
  constructor
  · rintro b hb ⟨hbg, hbs⟩
    rw [sc1] at hb
    obtain ⟨b0, hb0mem, hb0eq⟩ := List.mem_map.mp hb
    obtain ⟨hid, hgid⟩ := betFold_fields hw hc oh
      (s1.userBets.filter (fun b => b.gameId == gid && b.status == "pending")) b0
    subst hb0eq
    rcases betFold_status hw hc oh
        (s1.userBets.filter (fun b => b.gameId == gid && b.status == "pending")) b0 with
      h | h | h
    · have hb0g : b0.gameId = gid := by rw [← hgid]; exact hbg
      have hb0s : b0.status = "pending" := by rw [← h]; exact hbs
      have hmemL : b0 ∈ s1.userBets.filter (fun b =>
          b.gameId == gid && b.status == "pending") :=
        List.mem_filter.mpr ⟨hb0mem, by simp [hb0g, hb0s]⟩
      have hmemId : b0.id ∈ (s1.userBets.filter (fun b =>
          b.gameId == gid && b.status == "pending")).map Bet.id :=
        List.mem_map_of_mem Bet.id hmemL
      rcases betFold_processed hw hc oh
          (s1.userBets.filter (fun b => b.gameId == gid && b.status == "pending")) b0
          hmemId with h2 | h2
      · rw [h2] at hbs
        exact absurd hbs (by simp)
      · rw [h2] at hbs
        exact absurd hbs (by simp)
    · rw [h] at hbs
      exact absurd hbs (by simp)
    · rw [h] at hbs
      exact absurd hbs (by simp)
  · intro pb hpb hgidpb hstpb p hfindp
    rw [sc2] at hpb
    obtain ⟨pb0, hpb0mem, hpb0eq⟩ := List.mem_map.mp hpb
    obtain ⟨hid, hgid2, hpid⟩ := legFold_fields hw hc oh (joinedLegs s1 gid) pb0
    subst hpb0eq
    have hpb0st : pb0.status = "pending" := by
      rcases legFold_status hw hc oh (joinedLegs s1 gid) pb0 with h | h | h
      · rw [← h]; exact hstpb
      · rw [h] at hstpb; exact absurd hstpb (by simp)
      · rw [h] at hstpb; exact absurd hstpb (by simp)
    have hpb0g : pb0.gameId = gid := by rw [← hgid2]; exact hgidpb
    have hnotin : pb0.id ∉ (joinedLegs s1 gid).map (fun pr => pr.1.id) := by
      intro hin
      rcases legFold_processed hw hc oh (joinedLegs s1 gid) pb0 hin with h | h
      · rw [h] at hstpb; exact absurd hstpb (by simp)
      · rw [h] at hstpb; exact absurd hstpb (by simp)
    have hbase : ∀ p1, s1.parlays.find? (fun x => x.id == pb0.parlayId) = some p1 →
        ¬ p1.status = "pending" := by
      intro p1 hp1 hp1s
      exact hnotin (List.mem_map_of_mem (fun pr => pr.1.id)
        (mem_joinedLegs s1 gid pb0 p1 hpb0mem hpb0g hpb0st hp1 hp1s))
    rw [hpid] at hfindp
    exact settleCore_parlays_find? gid hw hc oh s1 pb0.parlayId hbase p hfindp

/-- If nothing on the game is pending any more, the settlement passes are a
no-op. -/
theorem settleCore_noop (gid : Nat) (hw hc oh : Bool) (t : DBState)
    (hp : t.userBets.filter (fun b => b.gameId == gid && b.status == "pending") = [])
    (hj : joinedLegs t gid = []) : settleCore gid hw hc oh t = t := by
  unfold settleCore
  simp only [hp, List.foldl_nil, hj, dedupParlays]

/-! Claim C3 (amended): second settlement of the same game. -/

/-- C3 amended: calling `simulate_game_result` again on a game that the first
call has just settled does not fail with an already-settled error — it
succeeds; it overwrites the game's final scores with the newly drawn ones, and
everything else (users and wallets, single bets, parlays, parlay legs,
holdings, logs) is exactly the state after the first call, because no pending
bets and no pending legs of pending parlays remain on that game. -/
theorem simulate_game_result_resettle (gid : Nat) (h1 a1 h2 a2 : Int)
    (s : DBState) (hg : (s.upcomingGames.find? (fun g => g.id == gid)).isSome) :
    (simulate_game_result gid h2 a2 (simulate_game_result gid h1 a1 s).2).1
      = ⟨true, "Game simulated successfully"⟩
    ∧ (simulate_game_result gid h2 a2 (simulate_game_result gid h1 a1 s).2).2
      = gameSet gid h2 a2 (simulate_game_result gid h1 a1 s).2 := by
  obtain ⟨game, hgame⟩ := Option.isSome_iff_exists.mp hg
  have hs1 : (simulate_game_result gid h1 a1 s).2
      = settleCore gid (decide (a1 < h1))
          (decide ((a1 : ℚ) < (h1 : ℚ) + game.spread))
          (decide (game.overUnder < ((h1 + a1 : Int) : ℚ)))
          (gameSet gid h1 a1 s) := by
    rw [simulate_game_result_run gid h1 a1 s game hgame]
  have hgames1 : (simulate_game_result gid h1 a1 s).2.upcomingGames
      = (gameSet gid h1 a1 s).upcomingGames := by
    rw [hs1]
    exact (settleCore_state gid _ _ _ (gameSet gid h1 a1 s)).2.2
  have hfound : ∃ g2, (simulate_game_result gid h1 a1 s).2.upcomingGames.find?
      (fun g => g.id == gid) = some g2 := by
    have hgs : (gameSet gid h1 a1 s).upcomingGames
        = s.upcomingGames.map (fun (g : Game) =>
            if g.id == gid then
              { g with status := "completed", homeScore := h1, awayScore := a1 }
            else g) := rfl
    rw [hgames1, hgs, find?_map_comm (fun g => g.id == gid)
      (fun (g : Game) => if g.id == gid then
        { g with status := "completed", homeScore := h1, awayScore := a1 } else g)
      (fun g => by by_cases hx : (g.id == gid) = true <;> simp [hx]), hgame]
    exact ⟨_, rfl⟩
  obtain ⟨game2, hgame2⟩ := hfound
  have hrun2 := simulate_game_result_run gid h2 a2
    (simulate_game_result gid h1 a1 s).2 game2 hgame2
  obtain ⟨np1, np2⟩ := settleCore_no_pending gid (decide (a1 < h1))
      (decide ((a1 : ℚ) < (h1 : ℚ) + game.spread))
      (decide (game.overUnder < ((h1 + a1 : Int) : ℚ))) (gameSet gid h1 a1 s)
  rw [← hs1] at np1 np2
  have hub : (gameSet gid h2 a2 (simulate_game_result gid h1 a1 s).2).userBets
      = (simulate_game_result gid h1 a1 s).2.userBets := rfl
  have hpend2 : (gameSet gid h2 a2 (simulate_game_result gid h1 a1 s).2).userBets.filter
      (fun b => b.gameId == gid && b.status == "pending") = [] := by
    rw [hub, List.filter_eq_nil_iff]
    intro b hb
    have hnb := np1 b hb
    simp only [not_and] at hnb
    simp only [Bool.and_eq_true, beq_iff_eq, not_and]
    exact hnb
  have hj2 : joinedLegs (gameSet gid h2 a2 (simulate_game_result gid h1 a1 s).2) gid
      = [] := by
    rw [joinedLegs_congr (gameSet gid h2 a2 (simulate_game_result gid h1 a1 s).2)
      (simulate_game_result gid h1 a1 s).2 gid rfl rfl]
    unfold joinedLegs
    rw [List.filterMap_eq_nil_iff]
    intro pb hpb2
    by_cases hcond : (pb.gameId == gid && pb.status == "pending") = true
    · simp only [hcond, ite_true]
      obtain ⟨hg2, hst2⟩ : pb.gameId = gid ∧ pb.status = "pending" := by
        simpa using hcond
      cases hfind : (simulate_game_result gid h1 a1 s).2.parlays.find?
          (fun p => p.id == pb.parlayId) with
      | none => rfl
      | some p =>
        have hnp := np2 pb hpb2 hg2 hst2 p hfind
        simp [hnp]
    · simp [hcond]
  constructor
  · rw [hrun2]
  · rw [hrun2]
    exact settleCore_noop gid _ _ _ _ hpend2 hj2

theorem simulate_game_result_resettle_witness :
    (simulate_game_result 1 7 3 (simulate_game_result 1 24 20 spreadExampleState).2).1
      = ⟨true, "Game simulated successfully"⟩
    ∧ (simulate_game_result 1 7 3 (simulate_game_result 1 24 20 spreadExampleState).2).2
      = gameSet 1 7 3 (simulate_game_result 1 24 20 spreadExampleState).2 :=
  simulate_game_result_resettle 1 24 20 7 3 spreadExampleState rfl

/-! Machinery for claim C1: a single `execute_transaction` call moves the
ledger by exactly the signed delta of the accepted operation and preserves the
non-negativity invariants. -/

theorem key_not_mem_of_find?_none (l : List Holding) (uid ty nm : String)
    (hf : l.find? (hmatch uid ty nm) = none) : (uid, ty, nm) ∉ l.map hkey := by
  rw [List.find?_eq_none] at hf
  intro hmem
  obtain ⟨x, hx, hxk⟩ := List.mem_map.mp hmem
  exact hf x hx ((hmatch_iff uid ty nm x).mpr hxk)

theorem balanceOf_eq_of_find (s : DBState) (uid : String) (u : UserRow)
    (hu : findUser s uid = some u) : balanceOf s uid = u.walletBalance := by
  simp [balanceOf, hu]

theorem qtyOf_eq_of_find (s : DBState) (uid ty nm : String) (h : Holding)
    (hf : findHolding s uid ty nm = some h) : qtyOf s uid ty nm = h.quantity := by
  simp [qtyOf, hf]

theorem qtyOf_eq_of_none (s : DBState) (uid ty nm : String)
    (hf : findHolding s uid ty nm = none) : qtyOf s uid ty nm = 0 := by
  simp [qtyOf, hf]


theorem qtyOf_eq_list (s : DBState) (L : List Holding) (hL : s.holdings = L)
    (uid ty nm : String) :
    qtyOf s uid ty nm = ((L.find? (hmatch uid ty nm)).map Holding.quantity).getD 0 := by
  subst hL
  rfl

theorem findUser_users_congr (s t : DBState) (h : s.users = t.users) (uid : String) :
    findUser s uid = findUser t uid := by
  unfold findUser
  rw [h]

theorem balanceOf_users_congr (s t : DBState) (h : s.users = t.users) (uid : String) :
    balanceOf s uid = balanceOf t uid := by
  unfold balanceOf
  rw [findUser_users_congr s t h uid]

theorem applyOp_step (uid : String) (op : TradeOp) (s : DBState) (u : UserRow)
    (hu : s.users.find? (fun x => x.id == uid) = some u)
    (hbal : 0 ≤ u.walletBalance)
    (hqty : ∀ h ∈ s.holdings, 0 ≤ h.quantity)
    (hnd : (s.holdings.map hkey).Nodup)
    (hprice : 0 ≤ op.price) :
    (findUser (applyOp uid s op).2 uid).isSome
    ∧ balanceOf (applyOp uid s op).2 uid = balanceOf s uid
        + (if (applyOp uid s op).1.success then
            (if op.txnType == "buy" then -op.price else op.price) else 0)
    ∧ (∀ ty nm, qtyOf (applyOp uid s op).2 uid ty nm = qtyOf s uid ty nm
        + (if (applyOp uid s op).1.success && op.assetType == ty && op.assetName == nm then
            (if op.txnType == "buy" then 1 else -1) else 0))
    ∧ 0 ≤ balanceOf (applyOp uid s op).2 uid
    ∧ (∀ h ∈ (applyOp uid s op).2.holdings, 0 ≤ h.quantity)
    ∧ ((applyOp uid s op).2.holdings.map hkey).Nodup := by
  have hds : (if uid == "demo_user_001" then demoEnsure s else s) = s :=
    demo_skip uid s (by simp [hu])
  have hbs : balanceOf s uid = u.walletBalance := balanceOf_eq_of_find s uid u hu
  by_cases hb : (op.txnType == "buy") = true
  · -- buy
    have hbeq : op.txnType = "buy" := by simpa using hb
    by_cases hlt : u.walletBalance < op.price
    · -- insufficient funds: rejected, state unchanged
      have hrun : applyOp uid s op = (⟨false, "Insufficient funds"⟩, s) := by
        simp only [applyOp, execute_transaction, hds, hu, hb]
        simp [hlt]
      rw [hrun]
      exact ⟨by simp [hu, findUser], by simp, fun ty nm => by simp, hbs ▸ hbal, hqty, hnd⟩
    · -- accepted buy
      cases hf : findHolding s uid op.assetType op.assetName with
      | some h0 =>
        have hrun : applyOp uid s op
            = (⟨true, "Successfully bought"⟩,
               { updateBalance s uid (fun b => b - op.price) with
                 holdings := setQtyFirst s.holdings uid op.assetType op.assetName
                   (h0.quantity + 1),
                 transactions := s.transactions
                   ++ [⟨uid, "Buy", op.assetType, op.assetName, op.price, 1, op.price, 0⟩] }) := by
          simp only [applyOp, execute_transaction, hds, hu, hb]
          have hf2 : findHolding (updateBalance s uid (fun b => b - op.price)) uid
              op.assetType op.assetName = some h0 := hf
          simp only [hf2]
          simp [hlt]
          exact ⟨rfl, rfl⟩
        rw [hrun]
        have hmem0 : h0 ∈ s.holdings := List.mem_of_find?_eq_some hf
        refine ⟨?_, ?_, ?_, ?_, ?_, ?_⟩
        · show (findUser (updateBalance s uid (fun b => b - op.price)) uid).isSome
          exact findUser_isSome_updateBalance s uid _ (by simp [findUser, hu])
        · show balanceOf (updateBalance s uid (fun b => b - op.price)) uid = _
          rw [balanceOf_updateBalance s uid _ u hu, hbs]
          simp only [hb, ite_true]
          ring
        · intro ty nm
          rw [qtyOf_eq_list _ (setQtyFirst s.holdings uid op.assetType op.assetName
            (h0.quantity + 1)) rfl uid ty nm, setQtyFirst]
          by_cases h1 : op.assetType = ty
          · by_cases h2 : op.assetName = nm
            · subst h1; subst h2
              rw [find?_mapQtyFirst_self s.holdings uid op.assetType op.assetName _ h0 hf,
                qtyOf_eq_of_find s uid op.assetType op.assetName h0 hf]
              simp [hbeq]
            · rw [find?_mapQtyFirst_other s.holdings uid op.assetType op.assetName uid ty nm _
                (by intro hc; exact h2 (congrArg (fun p => p.2.2) hc).symm),
                ← qtyOf_eq_list s s.holdings rfl uid ty nm]
              simp [h2]
          · rw [find?_mapQtyFirst_other s.holdings uid op.assetType op.assetName uid ty nm _
              (by intro hc; exact h1 (congrArg (fun p => p.2.1) hc).symm),
              ← qtyOf_eq_list s s.holdings rfl uid ty nm]
            simp [h1]
        · show 0 ≤ balanceOf (updateBalance s uid (fun b => b - op.price)) uid
          rw [balanceOf_updateBalance s uid _ u hu]
          push_neg at hlt
          linarith
        · intro h hmem
          rcases mem_mapQtyFirst s.holdings uid op.assetType op.assetName _ h hmem with
            hin | ⟨h2, hin2, heq⟩
          · exact hqty h hin
          · rw [heq]
            show 0 ≤ h0.quantity + 1
            have := hqty h0 hmem0
            linarith
        · show ((setQtyFirst s.holdings uid op.assetType op.assetName
            (h0.quantity + 1)).map hkey).Nodup
          rw [setQtyFirst, map_hkey_mapQtyFirst]
          exact hnd
      | none =>
        obtain ⟨hr1, hr2, hr3⟩ : (applyOp uid s op).1.success = true
            ∧ (applyOp uid s op).2.users
              = (updateBalance s uid (fun b => b - op.price)).users
            ∧ (applyOp uid s op).2.holdings
              = s.holdings ++ [Holding.mk uid op.assetType op.assetName 1] := by
          have hf2 : findHolding (updateBalance s uid (fun b => b - op.price)) uid
              op.assetType op.assetName = none := hf
          refine ⟨?_, ?_, ?_⟩ <;>
            (simp only [applyOp, execute_transaction, hds, hu, hb, ite_true, if_neg hlt,
              hf2]; try rfl)
        have hfL : s.holdings.find? (hmatch uid op.assetType op.assetName) = none := hf
        refine ⟨?_, ?_, ?_, ?_, ?_, ?_⟩
        · rw [findUser_users_congr (applyOp uid s op).2
            (updateBalance s uid (fun b => b - op.price)) hr2 uid]
          exact findUser_isSome_updateBalance s uid _ (by simp [findUser, hu])
        · rw [balanceOf_users_congr (applyOp uid s op).2
            (updateBalance s uid (fun b => b - op.price)) hr2 uid,
            balanceOf_updateBalance s uid _ u hu, hbs, hr1]
          simp only [hb, ite_true]
          ring
        · intro ty nm
          rw [qtyOf_eq_list (applyOp uid s op).2
            (s.holdings ++ [Holding.mk uid op.assetType op.assetName 1]) hr3 uid ty nm,
            List.find?_append, hr1]
          by_cases h1 : op.assetType = ty
          · by_cases h2 : op.assetName = nm
            · subst h1; subst h2
              rw [hfL, qtyOf_eq_of_none s uid op.assetType op.assetName hf]
              simp [List.find?, hmatch, hbeq]
            · have hb2 : (op.assetName == nm) = false := by simpa using h2
              have hx : (List.find? (hmatch uid ty nm)
                  [Holding.mk uid op.assetType op.assetName 1]) = none := by
                simp [List.find?, hmatch, hb2]
              rw [hx, Option.or_none, ← qtyOf_eq_list s s.holdings rfl uid ty nm]
              simp [h2]
          · have hb1 : (op.assetType == ty) = false := by simpa using h1
            have hx : (List.find? (hmatch uid ty nm)
                [Holding.mk uid op.assetType op.assetName 1]) = none := by
              simp [List.find?, hmatch, hb1]
            rw [hx, Option.or_none, ← qtyOf_eq_list s s.holdings rfl uid ty nm]
            simp [h1]
        · rw [balanceOf_users_congr (applyOp uid s op).2
            (updateBalance s uid (fun b => b - op.price)) hr2 uid,
            balanceOf_updateBalance s uid _ u hu]
          push_neg at hlt
          linarith
        · intro h hmem
          rw [hr3] at hmem
          rcases List.mem_append.mp hmem with hin | hin
          · exact hqty h hin
          · rw [List.mem_singleton.mp hin]
            norm_num
        · rw [hr3, List.map_append]
          rw [List.nodup_append]
          refine ⟨hnd, by simp, ?_⟩
          intro k hk hk2
          simp only [List.map_cons, List.map_nil, List.mem_singleton] at hk2
          rw [hk2] at hk
          exact key_not_mem_of_find?_none s.holdings uid op.assetType op.assetName hfL hk
  · -- not a buy
    by_cases hsell : (op.txnType == "sell") = true
    · -- sell
      have hbne : ¬ op.txnType = "buy" := by simpa using hb
      cases hf : findHolding s uid op.assetType op.assetName with
      | none =>
        have hrun : applyOp uid s op = (⟨false, "You do not own any shares to sell"⟩, s) := by
          simp only [applyOp, execute_transaction, hds, hu, if_neg hb, hsell, ite_true, hf]
        rw [hrun]
        refine ⟨by simp [hu, findUser], by simp, fun ty nm => by simp, hbs ▸ hbal, hqty, hnd⟩
      | some h0 =>
        by_cases hq1 : h0.quantity < 1
        · have hrun : applyOp uid s op
              = (⟨false, "You do not own any shares to sell"⟩, s) := by
            simp only [applyOp, execute_transaction, hds, hu, if_neg hb, hsell, ite_true, hf]
            simp [hq1]
          rw [hrun]
          refine ⟨by simp [hu, findUser], by simp, fun ty nm => by simp, hbs ▸ hbal, hqty, hnd⟩
        · have hq0 : qtyOf s uid op.assetType op.assetName = h0.quantity :=
            qtyOf_eq_of_find s uid op.assetType op.assetName h0 hf
          by_cases heq1 : (h0.quantity == 1) = true
          · -- quantity exactly 1: row deleted
            obtain ⟨hr1, hr2, hr3⟩ : (applyOp uid s op).1.success = true
                ∧ (applyOp uid s op).2.users
                  = (updateBalance s uid (fun b => b + op.price)).users
                ∧ (applyOp uid s op).2.holdings
                  = s.holdings.eraseP (hmatch uid op.assetType op.assetName) := by
              refine ⟨?_, ?_, ?_⟩ <;>
                (simp only [applyOp, execute_transaction, hds, hu, if_neg hb, hsell,
                  ite_true, hf, if_neg hq1, heq1]; try rfl)
            refine ⟨?_, ?_, ?_, ?_, ?_, ?_⟩
            · rw [findUser_users_congr (applyOp uid s op).2
                (updateBalance s uid (fun b => b + op.price)) hr2 uid]
              exact findUser_isSome_updateBalance s uid _ (by simp [findUser, hu])
            · rw [balanceOf_users_congr (applyOp uid s op).2
                (updateBalance s uid (fun b => b + op.price)) hr2 uid,
                balanceOf_updateBalance s uid _ u hu, hbs, hr1]
              simp [hbne]
            · intro ty nm
              rw [qtyOf_eq_list (applyOp uid s op).2
                (s.holdings.eraseP (hmatch uid op.assetType op.assetName)) hr3 uid ty nm,
                hr1]
              by_cases h1 : op.assetType = ty
              · by_cases h2 : op.assetName = nm
                · subst h1; subst h2
                  rw [find?_eraseP_self s.holdings uid op.assetType op.assetName hnd, hq0]
                  have hq11 : h0.quantity = 1 := by simpa using heq1
                  norm_num [hq11, hbne]
                · rw [find?_eraseP_other s.holdings uid op.assetType op.assetName uid ty nm
                    (by intro hc; exact h2 (congrArg (fun p => p.2.2) hc).symm),
                    ← qtyOf_eq_list s s.holdings rfl uid ty nm]
                  simp [h2]
              · rw [find?_eraseP_other s.holdings uid op.assetType op.assetName uid ty nm
                  (by intro hc; exact h1 (congrArg (fun p => p.2.1) hc).symm),
                  ← qtyOf_eq_list s s.holdings rfl uid ty nm]
                simp [h1]
            · rw [balanceOf_users_congr (applyOp uid s op).2
                (updateBalance s uid (fun b => b + op.price)) hr2 uid,
                balanceOf_updateBalance s uid _ u hu]
              linarith
            · intro h hmem
              rw [hr3] at hmem
              exact hqty h (List.eraseP_sublist s.holdings |>.mem hmem)
            · rw [hr3]
              exact map_hkey_eraseP_nodup s.holdings _ hnd
          · -- quantity above 1: decrement
            obtain ⟨hr1, hr2, hr3⟩ : (applyOp uid s op).1.success = true
                ∧ (applyOp uid s op).2.users
                  = (updateBalance s uid (fun b => b + op.price)).users
                ∧ (applyOp uid s op).2.holdings
                  = setQtyFirst s.holdings uid op.assetType op.assetName
                      (h0.quantity - 1) := by
              refine ⟨?_, ?_, ?_⟩ <;>
                (simp only [applyOp, execute_transaction, hds, hu, if_neg hb, hsell,
                  ite_true, hf, if_neg hq1, heq1, Bool.false_eq_true, ite_false]; try rfl)
            refine ⟨?_, ?_, ?_, ?_, ?_, ?_⟩
            · rw [findUser_users_congr (applyOp uid s op).2
                (updateBalance s uid (fun b => b + op.price)) hr2 uid]
              exact findUser_isSome_updateBalance s uid _ (by simp [findUser, hu])
            · rw [balanceOf_users_congr (applyOp uid s op).2
                (updateBalance s uid (fun b => b + op.price)) hr2 uid,
                balanceOf_updateBalance s uid _ u hu, hbs, hr1]
              simp [hbne]
            · intro ty nm
              rw [qtyOf_eq_list (applyOp uid s op).2
                (setQtyFirst s.holdings uid op.assetType op.assetName (h0.quantity - 1))
                hr3 uid ty nm, setQtyFirst, hr1]
              by_cases h1 : op.assetType = ty
              · by_cases h2 : op.assetName = nm
                · subst h1; subst h2
                  rw [find?_mapQtyFirst_self s.holdings uid op.assetType op.assetName _
                    h0 hf, hq0]
                  norm_num [hbne]
                  ring
                · rw [find?_mapQtyFirst_other s.holdings uid op.assetType op.assetName
                    uid ty nm _
                    (by intro hc; exact h2 (congrArg (fun p => p.2.2) hc).symm),
                    ← qtyOf_eq_list s s.holdings rfl uid ty nm]
                  simp [h2]
              · rw [find?_mapQtyFirst_other s.holdings uid op.assetType op.assetName
                  uid ty nm _
                  (by intro hc; exact h1 (congrArg (fun p => p.2.1) hc).symm),
                  ← qtyOf_eq_list s s.holdings rfl uid ty nm]
                simp [h1]
            · rw [balanceOf_users_congr (applyOp uid s op).2
                (updateBalance s uid (fun b => b + op.price)) hr2 uid,
                balanceOf_updateBalance s uid _ u hu]
              linarith
            · intro h hmem
              rw [hr3] at hmem
              rcases mem_mapQtyFirst s.holdings uid op.assetType op.assetName _ h hmem with
                hin | ⟨h2, hin2, heq⟩
              · exact hqty h hin
              · rw [heq]
                show 0 ≤ h0.quantity - 1
                push_neg at hq1
                linarith
            · rw [hr3, setQtyFirst, map_hkey_mapQtyFirst]
              exact hnd
    · -- invalid transaction type: rejected
      have hrun : applyOp uid s op = (⟨false, "Invalid transaction type"⟩, s) := by
        simp only [applyOp, execute_transaction, hds, hu, if_neg hb, if_neg hsell]
      rw [hrun]
      refine ⟨by simp [hu, findUser], by simp, fun ty nm => by simp, hbs ▸ hbal, hqty, hnd⟩

/-! Claim C1: the ledger replay invariant. -/

/-- C1: replaying any sequence of buy/sell operations on one account, the
final wallet balance is the initial balance plus the sum of the signed cash
deltas of the accepted operations, every per-asset holding quantity is the
initial quantity plus the sum of the signed quantity deltas of the accepted
operations on that asset, and after every prefix of the sequence the balance
and every holding quantity are non-negative.  Hypotheses: the account exists,
the initial state satisfies the non-negativity invariants with one holdings
row per asset key, and the quoted prices are non-negative. -/
theorem execute_transaction_ledger_replay (uid : String) (ops : List TradeOp)
    (s : DBState)
    (hu : (findUser s uid).isSome)
    (hbal : 0 ≤ balanceOf s uid)
    (hqty : ∀ h ∈ s.holdings, 0 ≤ h.quantity)
    (hnd : (s.holdings.map hkey).Nodup)
    (hprices : ∀ op ∈ ops, 0 ≤ op.price) :
    balanceOf (replay uid ops s) uid = balanceOf s uid + cashDeltaSum uid ops s
    ∧ (∀ ty nm, qtyOf (replay uid ops s) uid ty nm
        = qtyOf s uid ty nm + qtyDeltaSum uid ty nm ops s)
    ∧ (∀ ops1 ops2, ops = ops1 ++ ops2 →
        0 ≤ balanceOf (replay uid ops1 s) uid
        ∧ ∀ h ∈ (replay uid ops1 s).holdings, 0 ≤ h.quantity) := by
  induction ops generalizing s with
  | nil =>
    refine ⟨by simp [replay, cashDeltaSum],
      fun ty nm => by simp [replay, qtyDeltaSum], ?_⟩
    intro ops1 ops2 hsplit
    have h0 : ops1 = [] := by
      cases ops1 with
      | nil => rfl
      | cons a l => simp at hsplit
    subst h0
    exact ⟨hbal, hqty⟩
  | cons op ops ih =>
    obtain ⟨u, hu2⟩ := Option.isSome_iff_exists.mp hu
    have hbalu : 0 ≤ u.walletBalance := by
      rw [← balanceOf_eq_of_find s uid u hu2]
      exact hbal
    obtain ⟨st1, st2, st3, st4, st5, st6⟩ := applyOp_step uid op s u hu2 hbalu hqty hnd
      (hprices op (by simp))
    have hprices2 : ∀ op2 ∈ ops, 0 ≤ op2.price :=
      fun op2 h2 => hprices op2 (by simp [h2])
    obtain ⟨ih1, ih2, ih3⟩ := ih (applyOp uid s op).2 st1 st4 st5 st6 hprices2
    refine ⟨?_, ?_, ?_⟩
    · rw [show replay uid (op :: ops) s = replay uid ops (applyOp uid s op).2 from rfl,
        ih1, st2]
      simp only [cashDeltaSum]
      ring
    · intro ty nm
      rw [show replay uid (op :: ops) s = replay uid ops (applyOp uid s op).2 from rfl,
        ih2 ty nm, st3 ty nm]
      simp only [qtyDeltaSum]
      ring
    · intro ops1 ops2 hsplit
      cases ops1 with
      | nil => exact ⟨hbal, hqty⟩
      | cons op1 ops1t =>
        rw [List.cons_append] at hsplit
        injection hsplit with he1 he2
        subst he1
        exact ih3 ops1t ops2 he2

theorem execute_transaction_ledger_replay_witness :
    balanceOf (replay "u1" [⟨"Player", "A", "buy", 100⟩, ⟨"Player", "A", "buy", 250⟩,
        ⟨"Player", "A", "sell", 50⟩] plainState) "u1"
      = balanceOf plainState "u1" + cashDeltaSum "u1" [⟨"Player", "A", "buy", 100⟩,
          ⟨"Player", "A", "buy", 250⟩, ⟨"Player", "A", "sell", 50⟩] plainState
    ∧ (∀ ty nm, qtyOf (replay "u1" [⟨"Player", "A", "buy", 100⟩,
          ⟨"Player", "A", "buy", 250⟩, ⟨"Player", "A", "sell", 50⟩] plainState) "u1" ty nm
        = qtyOf plainState "u1" ty nm + qtyDeltaSum "u1" ty nm
            [⟨"Player", "A", "buy", 100⟩, ⟨"Player", "A", "buy", 250⟩,
             ⟨"Player", "A", "sell", 50⟩] plainState)
    ∧ (∀ ops1 ops2, [⟨"Player", "A", "buy", 100⟩, ⟨"Player", "A", "buy", 250⟩,
          (⟨"Player", "A", "sell", 50⟩ : TradeOp)] = ops1 ++ ops2 →
        0 ≤ balanceOf (replay "u1" ops1 plainState) "u1"
        ∧ ∀ h ∈ (replay "u1" ops1 plainState).holdings, 0 ≤ h.quantity) :=
  execute_transaction_ledger_replay "u1"
    [⟨"Player", "A", "buy", 100⟩, ⟨"Player", "A", "buy", 250⟩,
     ⟨"Player", "A", "sell", 50⟩] plainState
    (by simp [findUser, plainState])
    (by norm_num [balanceOf, findUser, plainState, List.find?])
    (by simp [plainState])
    (by simp [plainState])
    (by
      intro op h
      simp only [List.mem_cons, List.not_mem_nil, or_false] at h
      rcases h with h | h | h <;> simp [h])

/-! Machinery for claim C4: the quantity a holdings list reports at one key,
and how each trade-offer asset transfer moves it. -/

/-- The quantity the first matching row of a holdings list reports
(0 when absent). -/
def qtyL (l : List Holding) (u t n : String) : Int :=
  ((l.find? (hmatch u t n)).map Holding.quantity).getD 0

theorem qtyOf_eq_qtyL (s : DBState) (u t n : String) :
    qtyOf s u t n = qtyL s.holdings u t n := rfl

theorem qtyL_nonneg (l : List Holding) (u t n : String)
    (h : ∀ x ∈ l, 0 ≤ x.quantity) : 0 ≤ qtyL l u t n := by
  unfold qtyL
  cases hf : l.find? (hmatch u t n) with
  | none => simp
  | some x =>
    simp only [Option.map_some', Option.getD_some]
    exact h x (List.mem_of_find?_eq_some hf)

theorem find?_decAll (l : List Holding) (uid ty nm u2 t2 n2 : String) (q : Int) :
    (decAll l uid ty nm q).find? (hmatch u2 t2 n2)
      = (l.find? (hmatch u2 t2 n2)).map (fun h =>
          if hmatch uid ty nm h then { h with quantity := h.quantity - q } else h) := by
  unfold decAll
  exact find?_map_comm _ _
    (fun x => by
      by_cases hx : hmatch uid ty nm x = true <;> simp [hx, hmatch_quantity_update]) _

theorem map_hkey_decAll (l : List Holding) (uid ty nm : String) (q : Int) :
    (decAll l uid ty nm q).map hkey = l.map hkey := by
  unfold decAll
  rw [List.map_map]
  exact List.map_congr_left (fun x _ => by
    by_cases hx : hmatch uid ty nm x = true <;> simp [Function.comp, hx, hkey])

theorem find?_applyTransfer_diff (toUser : String) (hl : List Holding)
    (a : TOfferAsset) (u2 t2 n2 : String)
    (hne : (t2, n2) ≠ (a.assetType, a.assetName)) :
    (applyTransfer toUser hl a).find? (hmatch u2 t2 n2)
      = hl.find? (hmatch u2 t2 n2) := by
  have hdec : (decAll hl a.userId a.assetType a.assetName a.quantity).find?
      (hmatch u2 t2 n2) = hl.find? (hmatch u2 t2 n2) := by
    rw [find?_decAll]
    cases hf : hl.find? (hmatch u2 t2 n2) with
    | none => rfl
    | some h =>
      have hk : hkey h = (u2, t2, n2) := (hmatch_iff u2 t2 n2 h).mp (List.find?_some hf)
      have : hmatch a.userId a.assetType a.assetName h = false := by
        by_contra hc
        have hk2 := (hmatch_iff a.userId a.assetType a.assetName h).mp (by simpa using hc)
        rw [hk] at hk2
        exact hne (by
          have := congrArg (fun p => (p.2.1, p.2.2)) hk2
          simpa using this)
      simp [this]
  unfold applyTransfer
  cases hto : (decAll hl a.userId a.assetType a.assetName a.quantity).find?
      (hmatch toUser a.assetType a.assetName) with
  | some h =>
    simp only [hto]
    rw [addQtyFirst, find?_mapQtyFirst_other _ toUser a.assetType a.assetName u2 t2 n2 _
      (by intro hc; exact hne (by
        have := congrArg (fun p => (p.2.1, p.2.2)) hc
        simpa using this))]
    exact hdec
  | none =>
    simp only [hto]
    rw [List.find?_append, hdec]
    have hx : (List.find? (hmatch u2 t2 n2)
        [Holding.mk toUser a.assetType a.assetName a.quantity]) = none := by
      have : hmatch u2 t2 n2 (Holding.mk toUser a.assetType a.assetName a.quantity)
          = false := by
        by_contra hc
        have hk2 := (hmatch_iff u2 t2 n2 _).mp (by simpa using hc)
        simp only [hkey] at hk2
        exact hne (by
          have := congrArg (fun p => (p.2.1, p.2.2)) hk2.symm
          simpa using this)
      simp [List.find?, this]
    rw [hx, Option.or_none]

theorem find?_foldl_applyTransfer_diff (as : List TOfferAsset) (toUser : String)
    (hl : List Holding) (u2 t2 n2 : String)
    (h : ∀ a ∈ as, (t2, n2) ≠ (a.assetType, a.assetName)) :
    (as.foldl (applyTransfer toUser) hl).find? (hmatch u2 t2 n2)
      = hl.find? (hmatch u2 t2 n2) := by
  induction as generalizing hl with
  | nil => rfl
  | cons a as ih =>
    rw [List.foldl_cons, ih _ (fun b hb => h b (by simp [hb])),
      find?_applyTransfer_diff toUser hl a u2 t2 n2 (h a (by simp))]

theorem qtyL_applyTransfer_source (toUser : String) (hl : List Holding)
    (a : TOfferAsset) (h0 : Holding) (hneu : toUser ≠ a.userId)
    (hf : hl.find? (hmatch a.userId a.assetType a.assetName) = some h0) :
    qtyL (applyTransfer toUser hl a) a.userId a.assetType a.assetName
      = h0.quantity - a.quantity := by
  have hdec : (decAll hl a.userId a.assetType a.assetName a.quantity).find?
      (hmatch a.userId a.assetType a.assetName)
      = some { h0 with quantity := h0.quantity - a.quantity } := by
    rw [find?_decAll, hf]
    simp [List.find?_some hf]
  unfold applyTransfer qtyL
  cases hto : (decAll hl a.userId a.assetType a.assetName a.quantity).find?
      (hmatch toUser a.assetType a.assetName) with
  | some h =>
    simp only [hto]
    rw [addQtyFirst, find?_mapQtyFirst_other _ toUser a.assetType a.assetName
      a.userId a.assetType a.assetName _
      (by intro hc; exact hneu (congrArg (fun p => p.1) hc).symm), hdec]
    rfl
  | none =>
    simp only [hto]
    rw [List.find?_append, hdec]
    rfl

theorem qtyL_applyTransfer_target (toUser : String) (hl : List Holding)
    (a : TOfferAsset) (hneu : toUser ≠ a.userId) :
    qtyL (applyTransfer toUser hl a) toUser a.assetType a.assetName
      = qtyL hl toUser a.assetType a.assetName + a.quantity := by
  have hdec : (decAll hl a.userId a.assetType a.assetName a.quantity).find?
      (hmatch toUser a.assetType a.assetName)
      = hl.find? (hmatch toUser a.assetType a.assetName) := by
    rw [find?_decAll]
    cases hf : hl.find? (hmatch toUser a.assetType a.assetName) with
    | none => rfl
    | some h =>
      have hk : hkey h = (toUser, a.assetType, a.assetName) :=
        (hmatch_iff _ _ _ h).mp (List.find?_some hf)
      have : hmatch a.userId a.assetType a.assetName h = false := by
        by_contra hc
        have hk2 := (hmatch_iff a.userId a.assetType a.assetName h).mp (by simpa using hc)
        rw [hk] at hk2
        exact hneu (congrArg (fun p => p.1) hk2.symm).symm
      simp [this]
  unfold applyTransfer qtyL
  cases hto : (decAll hl a.userId a.assetType a.assetName a.quantity).find?
      (hmatch toUser a.assetType a.assetName) with
  | some h =>
    simp only [hto]
    rw [addQtyFirst, find?_mapQtyFirst_self _ toUser a.assetType a.assetName _ h hto]
    rw [hdec] at hto
    rw [hto]
    rfl
  | none =>
    simp only [hto]
    have hx : (List.find? (hmatch toUser a.assetType a.assetName)
        [Holding.mk toUser a.assetType a.assetName a.quantity])
        = some (Holding.mk toUser a.assetType a.assetName a.quantity) := by
      simp [List.find?, hmatch]
    rw [List.find?_append, hto, hx]
    rw [hdec] at hto
    rw [hto]
    simp

theorem nodup_applyTransfer (toUser : String) (hl : List Holding) (a : TOfferAsset)
    (hnd : (hl.map hkey).Nodup) : ((applyTransfer toUser hl a).map hkey).Nodup := by
  unfold applyTransfer
  cases hto : (decAll hl a.userId a.assetType a.assetName a.quantity).find?
      (hmatch toUser a.assetType a.assetName) with
  | some h =>
    simp only [hto]
    rw [addQtyFirst, map_hkey_mapQtyFirst, map_hkey_decAll]
    exact hnd
  | none =>
    simp only [hto]
    rw [List.map_append, List.nodup_append]
    refine ⟨by rw [map_hkey_decAll]; exact hnd, by simp, ?_⟩
    intro k hk hk2
    simp only [List.map_cons, List.map_nil, List.mem_singleton] at hk2
    rw [hk2] at hk
    rw [map_hkey_decAll] at hk
    have hnone : hl.find? (hmatch toUser a.assetType a.assetName) = none := by
      have := hto
      rw [find?_decAll] at this
      cases hf : hl.find? (hmatch toUser a.assetType a.assetName) with
      | none => rfl
      | some x =>
        rw [hf] at this
        simp at this
    exact key_not_mem_of_find?_none hl toUser a.assetType a.assetName hnone
      (by simpa [hkey] using hk)

theorem nodup_foldl_applyTransfer (as : List TOfferAsset) (toUser : String)
    (hl : List Holding) (hnd : (hl.map hkey).Nodup) :
    ((as.foldl (applyTransfer toUser) hl).map hkey).Nodup := by
  induction as generalizing hl with
  | nil => exact hnd
  | cons a as ih =>
    rw [List.foldl_cons]
    exact ih _ (nodup_applyTransfer toUser hl a hnd)

/-- Pruning the zero rows does not change the reported quantity at a key whose
value is non-negative, when there is at most one row per key. -/
theorem qtyL_filter_pos (l : List Holding) (u t n : String)
    (hnd : (l.map hkey).Nodup) (hge : 0 ≤ qtyL l u t n) :
    qtyL (l.filter (fun h => decide (0 < h.quantity))) u t n = qtyL l u t n := by
  induction l with
  | nil => rfl
  | cons h l ih =>
    simp only [List.map_cons, List.nodup_cons] at hnd
    by_cases hm : hmatch u t n h = true
    · have hv : qtyL (h :: l) u t n = h.quantity := by
        unfold qtyL
        rw [List.find?_cons_of_pos _ hm]
        rfl
      have hnone : l.find? (hmatch u t n) = none := by
        apply find?_hmatch_of_not_mem
        rw [← (hmatch_iff u t n h).mp hm]
        exact hnd.1
      by_cases hq : 0 < h.quantity
      · rw [List.filter_cons_of_pos (by simpa using hq), hv]
        unfold qtyL
        rw [List.find?_cons_of_pos _ hm]
        rfl
      · have hq0 : h.quantity = 0 := le_antisymm (not_lt.mp hq) (by
          rw [hv] at hge
          exact hge)
        rw [List.filter_cons_of_neg (by simpa using hq), hv, hq0]
        unfold qtyL
        have : (l.filter (fun h => decide (0 < h.quantity))).find? (hmatch u t n)
            = none := by
          rw [List.find?_eq_none]
          intro x hx hmx
          rw [List.find?_eq_none] at hnone
          exact hnone x (List.mem_of_mem_filter hx) hmx
        rw [this]
        rfl
    · have hv : qtyL (h :: l) u t n = qtyL l u t n := by
        unfold qtyL
        rw [List.find?_cons_of_neg _ (by simpa using hm)]
      rw [hv] at hge ⊢
      by_cases hq : 0 < h.quantity
      · rw [List.filter_cons_of_pos (by simpa using hq)]
        unfold qtyL
        rw [List.find?_cons_of_neg _ (by simpa using hm)]
        exact ih hnd.2 hge
      · rw [List.filter_cons_of_neg (by simpa using hq)]
        exact ih hnd.2 hge

theorem qtyL_congr (l l' : List Holding) (u t n : String)
    (h : l.find? (hmatch u t n) = l'.find? (hmatch u t n)) :
    qtyL l u t n = qtyL l' u t n := by
  unfold qtyL
  rw [h]

/-- One full fold of `applyTransfer` over a list of offer assets with pairwise
distinct (type, name) pairs moves the quantity at each asset's source key down
by the asset's quantity and the quantity at the receiving user's key up by it. -/
theorem qtyL_foldl_applyTransfer (as : List TOfferAsset) (toUser : String)
    (hl : List Holding) (a : TOfferAsset) (h0 : Holding) (ha : a ∈ as)
    (hpairs : (as.map (fun x => (x.assetType, x.assetName))).Nodup)
    (htu : toUser ≠ a.userId)
    (hf : hl.find? (hmatch a.userId a.assetType a.assetName) = some h0) :
    qtyL (as.foldl (applyTransfer toUser) hl) a.userId a.assetType a.assetName
      = h0.quantity - a.quantity
    ∧ qtyL (as.foldl (applyTransfer toUser) hl) toUser a.assetType a.assetName
      = qtyL hl toUser a.assetType a.assetName + a.quantity := by
  obtain ⟨l1, l2, rfl⟩ := List.append_of_mem ha
  rw [List.map_append, List.map_cons, List.nodup_append] at hpairs
  obtain ⟨nd1, nd2, disj⟩ := hpairs
  have hal1 : (a.assetType, a.assetName)
      ∉ l1.map (fun x => (x.assetType, x.assetName)) := by
    intro hmem
    exact disj hmem (by simp)
  have hal2 : (a.assetType, a.assetName)
      ∉ l2.map (fun x => (x.assetType, x.assetName)) := (List.nodup_cons.mp nd2).1
  have hne1 : ∀ x ∈ l1, (a.assetType, a.assetName) ≠ (x.assetType, x.assetName) := by
    intro x hx he
    apply hal1
    rw [he]
    exact List.mem_map_of_mem _ hx
  have hne2 : ∀ x ∈ l2, (a.assetType, a.assetName) ≠ (x.assetType, x.assetName) := by
    intro x hx he
    apply hal2
    rw [he]
    exact List.mem_map_of_mem _ hx
  rw [List.foldl_append, List.foldl_cons]
  have hs1 : (l1.foldl (applyTransfer toUser) hl).find?
      (hmatch a.userId a.assetType a.assetName) = some h0 := by
    rw [find?_foldl_applyTransfer_diff l1 toUser hl a.userId a.assetType a.assetName hne1]
    exact hf
  constructor
  · rw [qtyL_congr _ _ a.userId a.assetType a.assetName
      (find?_foldl_applyTransfer_diff l2 toUser _ a.userId a.assetType a.assetName hne2)]
    exact qtyL_applyTransfer_source toUser _ a h0 htu hs1
  · rw [qtyL_congr _ _ toUser a.assetType a.assetName
      (find?_foldl_applyTransfer_diff l2 toUser _ toUser a.assetType a.assetName hne2)]
    rw [qtyL_applyTransfer_target toUser _ a htu]
    rw [qtyL_congr _ _ toUser a.assetType a.assetName
      (find?_foldl_applyTransfer_diff l1 toUser hl toUser a.assetType a.assetName hne1)]

/-- C4: accepting a trade offer is atomic.  If at acceptance time the sender
no longer holds every offered asset at the offered quantity, or the accepting
recipient no longer holds every requested asset, the call fails and the state
— holdings and the still-pending offer row included — is returned unchanged.
When both revalidations pass, the call succeeds, the offer is marked accepted,
and every offered asset moves in full from the sender to the recipient while
every requested asset moves in full from the recipient to the sender
(hypotheses: the offer row is pending and addressed to the caller, sender and
recipient are distinct users, the offer rows carry non-negative quantities and
pairwise distinct (type, name) pairs, and the holdings table has non-negative
quantities with one row per (user, type, name) key). -/
theorem respond_to_trade_offer_atomic
    (offerId : Nat) (uid : String) (s : DBState) (offer : TOffer)
    (SA RA : List TOfferAsset)
    (hfo : s.tradeOffers.find? (fun t => t.id == offerId && t.recipientId == uid)
      = some offer)
    (hpend : offer.status = "pending")
    (hSA : SA = (s.tradeOfferAssets.filter (fun a => a.tradeOfferId == offerId)).filter
      (fun a => a.userId == offer.senderId))
    (hRA : RA = (s.tradeOfferAssets.filter (fun a => a.tradeOfferId == offerId)).filter
      (fun a => !(a.userId == offer.senderId)))
    (hsr : offer.senderId ≠ offer.recipientId)
    (hnd : (s.holdings.map hkey).Nodup)
    (hpos : ∀ h ∈ s.holdings, 0 ≤ h.quantity)
    (hqs : ∀ x ∈ s.tradeOfferAssets.filter (fun a => a.tradeOfferId == offerId),
      0 ≤ x.quantity)
    (hpairs : ((s.tradeOfferAssets.filter (fun a => a.tradeOfferId == offerId)).map
      (fun x => (x.assetType, x.assetName))).Nodup) :
    ((SA.all (holdsEnough s) = false ∨ RA.all (holdsEnough s) = false) →
      (respond_to_trade_offer offerId uid "accept" s).1.success = false
      ∧ (respond_to_trade_offer offerId uid "accept" s).2 = s)
    ∧ (SA.all (holdsEnough s) = true → RA.all (holdsEnough s) = true →
      (respond_to_trade_offer offerId uid "accept" s).1.success = true
      ∧ (respond_to_trade_offer offerId uid "accept" s).2.tradeOffers
          = s.tradeOffers.map (fun t =>
              if t.id == offerId then { t with status := "accepted" } else t)
      ∧ (∀ a ∈ SA,
          qtyOf (respond_to_trade_offer offerId uid "accept" s).2
              a.userId a.assetType a.assetName
            = qtyOf s a.userId a.assetType a.assetName - a.quantity
          ∧ qtyOf (respond_to_trade_offer offerId uid "accept" s).2
              offer.recipientId a.assetType a.assetName
            = qtyOf s offer.recipientId a.assetType a.assetName + a.quantity)
      ∧ (∀ b ∈ RA,
          qtyOf (respond_to_trade_offer offerId uid "accept" s).2
              b.userId b.assetType b.assetName
            = qtyOf s b.userId b.assetType b.assetName - b.quantity
          ∧ qtyOf (respond_to_trade_offer offerId uid "accept" s).2
              offer.senderId b.assetType b.assetName
            = qtyOf s offer.senderId b.assetType b.assetName + b.quantity)) := by
  subst hSA
  subst hRA
  have hred : respond_to_trade_offer offerId uid "accept" s
      = (if !(((s.tradeOfferAssets.filter (fun a => a.tradeOfferId == offerId)).filter
            (fun a => a.userId == offer.senderId)).all (holdsEnough s)) then
          (⟨false, "Sender no longer has the offered shares"⟩, s)
        else if !(((s.tradeOfferAssets.filter (fun a => a.tradeOfferId == offerId)).filter
            (fun a => !(a.userId == offer.senderId))).all (holdsEnough s)) then
          (⟨false, "You no longer have the requested shares"⟩, s)
        else
          (⟨true, "Trade completed successfully"⟩,
            { s with
              holdings := ((((s.tradeOfferAssets.filter
                  (fun a => a.tradeOfferId == offerId)).filter
                  (fun a => !(a.userId == offer.senderId))).foldl
                  (applyTransfer offer.senderId)
                  (((s.tradeOfferAssets.filter
                    (fun a => a.tradeOfferId == offerId)).filter
                    (fun a => a.userId == offer.senderId)).foldl
                    (applyTransfer offer.recipientId) s.holdings)).filter
                  (fun h => decide (0 < h.quantity))),
              tradeOffers := s.tradeOffers.map (fun t =>
                if t.id == offerId then { t with status := "accepted" } else t) })) := by
    unfold respond_to_trade_offer
    rw [hfo]
    simp [hpend]
  constructor
  · rintro (h | h)
    · have hc : (!(((s.tradeOfferAssets.filter (fun a => a.tradeOfferId == offerId)).filter
          (fun a => a.userId == offer.senderId)).all (holdsEnough s))) = true := by
        rw [h]
        rfl
      rw [hred, if_pos hc]
      exact ⟨rfl, rfl⟩
    · rw [hred]
      cases hS : (((s.tradeOfferAssets.filter (fun a => a.tradeOfferId == offerId)).filter
          (fun a => a.userId == offer.senderId)).all (holdsEnough s))
      · exact ⟨rfl, rfl⟩
      · have hc2 : (!(((s.tradeOfferAssets.filter (fun a => a.tradeOfferId == offerId)).filter
            (fun a => !(a.userId == offer.senderId))).all (holdsEnough s))) = true := by
          rw [h]
          rfl
        have hc1 : ¬((!true) = true) := by simp
        rw [if_neg hc1, if_pos hc2]
        exact ⟨rfl, rfl⟩
  · intro hS hR
    have hc1 : ¬((!(((s.tradeOfferAssets.filter (fun a => a.tradeOfferId == offerId)).filter
        (fun a => a.userId == offer.senderId)).all (holdsEnough s))) = true) := by
      rw [hS]
      simp
    have hc2 : ¬((!(((s.tradeOfferAssets.filter (fun a => a.tradeOfferId == offerId)).filter
        (fun a => !(a.userId == offer.senderId))).all (holdsEnough s))) = true) := by
      rw [hR]
      simp
    rw [hred, if_neg hc1, if_neg hc2]
    refine ⟨rfl, rfl, ?_, ?_⟩
    · intro a ha
      have haA : a ∈ s.tradeOfferAssets.filter (fun x => x.tradeOfferId == offerId) :=
        List.mem_of_mem_filter ha
      have hauser : a.userId = offer.senderId := by
        have := (List.mem_filter.mp ha).2
        simpa using this
      have hpairsSA : ((((s.tradeOfferAssets.filter
          (fun x => x.tradeOfferId == offerId)).filter
          (fun x => x.userId == offer.senderId)).map
          (fun x => (x.assetType, x.assetName)))).Nodup :=
        hpairs.sublist (List.Sublist.map _ (List.filter_sublist _))
      have hcross : ∀ x ∈ ((s.tradeOfferAssets.filter
          (fun y => y.tradeOfferId == offerId)).filter
          (fun y => !(y.userId == offer.senderId))),
          (a.assetType, a.assetName) ≠ (x.assetType, x.assetName) := by
        intro x hx he
        have hxA : x ∈ s.tradeOfferAssets.filter (fun y => y.tradeOfferId == offerId) :=
          List.mem_of_mem_filter hx
        have hxuser : ¬(x.userId = offer.senderId) := by
          have := (List.mem_filter.mp hx).2
          simpa using this
        have hax : a = x := List.inj_on_of_nodup_map hpairs haA hxA he
        rw [hax] at hauser
        exact hxuser hauser
      have hold : holdsEnough s a = true := by
        rw [List.all_eq_true] at hS
        exact hS a ha
      obtain ⟨h0, hf0, hqle⟩ : ∃ h0, s.holdings.find?
          (hmatch a.userId a.assetType a.assetName) = some h0
          ∧ a.quantity ≤ h0.quantity := by
        unfold holdsEnough findHolding at hold
        cases hfh : s.holdings.find? (hmatch a.userId a.assetType a.assetName) with
        | none => rw [hfh] at hold; simp at hold
        | some h0 =>
          rw [hfh] at hold
          exact ⟨h0, rfl, by simpa using hold⟩
      have htu : offer.recipientId ≠ a.userId := by
        rw [hauser]
        exact fun he => hsr he.symm
      obtain ⟨hsrc1, htgt1⟩ := qtyL_foldl_applyTransfer _ offer.recipientId s.holdings
        a h0 ha hpairsSA htu hf0
      have hnd2 : ((((s.tradeOfferAssets.filter
          (fun y => y.tradeOfferId == offerId)).filter
          (fun y => !(y.userId == offer.senderId))).foldl (applyTransfer offer.senderId)
          (((s.tradeOfferAssets.filter (fun y => y.tradeOfferId == offerId)).filter
            (fun y => y.userId == offer.senderId)).foldl
            (applyTransfer offer.recipientId) s.holdings)).map hkey).Nodup :=
        nodup_foldl_applyTransfer _ _ _ (nodup_foldl_applyTransfer _ _ _ hnd)
      have hpresS : ∀ u : String, (((s.tradeOfferAssets.filter
          (fun y => y.tradeOfferId == offerId)).filter
          (fun y => !(y.userId == offer.senderId))).foldl (applyTransfer offer.senderId)
          (((s.tradeOfferAssets.filter (fun y => y.tradeOfferId == offerId)).filter
            (fun y => y.userId == offer.senderId)).foldl
            (applyTransfer offer.recipientId) s.holdings)).find?
          (hmatch u a.assetType a.assetName)
          = (((s.tradeOfferAssets.filter (fun y => y.tradeOfferId == offerId)).filter
            (fun y => y.userId == offer.senderId)).foldl
            (applyTransfer offer.recipientId) s.holdings).find?
            (hmatch u a.assetType a.assetName) := by
        intro u
        exact find?_foldl_applyTransfer_diff _ _ _ u a.assetType a.assetName hcross
      constructor
      · show qtyL _ a.userId a.assetType a.assetName = _
        rw [qtyL_filter_pos _ _ _ _ hnd2 (by
          rw [qtyL_congr _ _ a.userId a.assetType a.assetName (hpresS a.userId), hsrc1]
          exact sub_nonneg.mpr hqle)]
        rw [qtyL_congr _ _ a.userId a.assetType a.assetName (hpresS a.userId), hsrc1]
        have : qtyOf s a.userId a.assetType a.assetName = h0.quantity := by
          rw [qtyOf_eq_qtyL]
          unfold qtyL
          rw [hf0]
          rfl
        rw [this]
      · show qtyL _ offer.recipientId a.assetType a.assetName = _
        have hval : qtyL (((s.tradeOfferAssets.filter
            (fun y => y.tradeOfferId == offerId)).filter
            (fun y => !(y.userId == offer.senderId))).foldl (applyTransfer offer.senderId)
            (((s.tradeOfferAssets.filter (fun y => y.tradeOfferId == offerId)).filter
              (fun y => y.userId == offer.senderId)).foldl
              (applyTransfer offer.recipientId) s.holdings))
            offer.recipientId a.assetType a.assetName
            = qtyL s.holdings offer.recipientId a.assetType a.assetName + a.quantity := by
          rw [qtyL_congr _ _ offer.recipientId a.assetType a.assetName
            (hpresS offer.recipientId)]
          exact htgt1
        rw [qtyL_filter_pos _ _ _ _ hnd2 (by
          rw [hval]
          have h1 := qtyL_nonneg s.holdings offer.recipientId a.assetType a.assetName hpos
          have h2 := hqs a haA
          linarith)]
        rw [hval]
        rfl
    · intro b hb
      have hbA : b ∈ s.tradeOfferAssets.filter (fun x => x.tradeOfferId == offerId) :=
        List.mem_of_mem_filter hb
      have hbuser : ¬(b.userId = offer.senderId) := by
        have := (List.mem_filter.mp hb).2
        simpa using this
      have hpairsRA : ((((s.tradeOfferAssets.filter
          (fun x => x.tradeOfferId == offerId)).filter
          (fun x => !(x.userId == offer.senderId))).map
          (fun x => (x.assetType, x.assetName)))).Nodup :=
        hpairs.sublist (List.Sublist.map _ (List.filter_sublist _))
      have hcross : ∀ x ∈ ((s.tradeOfferAssets.filter
          (fun y => y.tradeOfferId == offerId)).filter
          (fun y => y.userId == offer.senderId)),
          (b.assetType, b.assetName) ≠ (x.assetType, x.assetName) := by
        intro x hx he
        have hxA : x ∈ s.tradeOfferAssets.filter (fun y => y.tradeOfferId == offerId) :=
          List.mem_of_mem_filter hx
        have hxuser : x.userId = offer.senderId := by
          have := (List.mem_filter.mp hx).2
          simpa using this
        have hbx : b = x := List.inj_on_of_nodup_map hpairs hbA hxA he
        rw [← hbx] at hxuser
        exact hbuser hxuser
      have hold : holdsEnough s b = true := by
        rw [List.all_eq_true] at hR
        exact hR b hb
      obtain ⟨h0, hf0, hqle⟩ : ∃ h0, s.holdings.find?
          (hmatch b.userId b.assetType b.assetName) = some h0
          ∧ b.quantity ≤ h0.quantity := by
        unfold holdsEnough findHolding at hold
        cases hfh : s.holdings.find? (hmatch b.userId b.assetType b.assetName) with
        | none => rw [hfh] at hold; simp at hold
        | some h0 =>
          rw [hfh] at hold
          exact ⟨h0, rfl, by simpa using hold⟩
      have hpresS : ∀ u : String, ((((s.tradeOfferAssets.filter
          (fun y => y.tradeOfferId == offerId)).filter
          (fun y => y.userId == offer.senderId)).foldl
          (applyTransfer offer.recipientId) s.holdings)).find?
          (hmatch u b.assetType b.assetName)
          = s.holdings.find? (hmatch u b.assetType b.assetName) := by
        intro u
        exact find?_foldl_applyTransfer_diff _ _ _ u b.assetType b.assetName hcross
      have htu : offer.senderId ≠ b.userId := fun he => hbuser he.symm
      have hf1 : ((((s.tradeOfferAssets.filter
          (fun y => y.tradeOfferId == offerId)).filter
          (fun y => y.userId == offer.senderId)).foldl
          (applyTransfer offer.recipientId) s.holdings)).find?
          (hmatch b.userId b.assetType b.assetName) = some h0 := by
        rw [hpresS b.userId]
        exact hf0
      obtain ⟨hsrc2, htgt2⟩ := qtyL_foldl_applyTransfer _ offer.senderId _
        b h0 hb hpairsRA htu hf1
      have hnd2 : ((((s.tradeOfferAssets.filter
          (fun y => y.tradeOfferId == offerId)).filter
          (fun y => !(y.userId == offer.senderId))).foldl (applyTransfer offer.senderId)
          (((s.tradeOfferAssets.filter (fun y => y.tradeOfferId == offerId)).filter
            (fun y => y.userId == offer.senderId)).foldl
            (applyTransfer offer.recipientId) s.holdings)).map hkey).Nodup :=
        nodup_foldl_applyTransfer _ _ _ (nodup_foldl_applyTransfer _ _ _ hnd)
      constructor
      · show qtyL _ b.userId b.assetType b.assetName = _
        rw [qtyL_filter_pos _ _ _ _ hnd2 (by
          rw [hsrc2]
          exact sub_nonneg.mpr hqle)]
        rw [hsrc2]
        have : qtyOf s b.userId b.assetType b.assetName = h0.quantity := by
          rw [qtyOf_eq_qtyL]
          unfold qtyL
          rw [hf0]
          rfl
        rw [this]
      · show qtyL _ offer.senderId b.assetType b.assetName = _
        have hval : qtyL (((s.tradeOfferAssets.filter
            (fun y => y.tradeOfferId == offerId)).filter
            (fun y => !(y.userId == offer.senderId))).foldl (applyTransfer offer.senderId)
            (((s.tradeOfferAssets.filter (fun y => y.tradeOfferId == offerId)).filter
              (fun y => y.userId == offer.senderId)).foldl
              (applyTransfer offer.recipientId) s.holdings))
            offer.senderId b.assetType b.assetName
            = qtyL s.holdings offer.senderId b.assetType b.assetName + b.quantity := by
          rw [htgt2]
          rw [qtyL_congr _ _ offer.senderId b.assetType b.assetName
            (hpresS offer.senderId)]
        rw [qtyL_filter_pos _ _ _ _ hnd2 (by
          rw [hval]
          have h1 := qtyL_nonneg s.holdings offer.senderId b.assetType b.assetName hpos
          have h2 := hqs b hbA
          linarith)]
        rw [hval]
        rfl

/-- A state with two users holding one asset each and a pending offer from u1
trading 3 shares of Player A for 1 of user u2's 2 shares of Player B. -/
def tradeState : DBState :=
  ⟨[⟨"u1", "User One", 300, true⟩, ⟨"u2", "User Two", 100, true⟩],
   [⟨"u1", "Player", "A", 3⟩, ⟨"u2", "Player", "B", 2⟩], [],
   [⟨1, "u1", "u2", "pending"⟩],
   [⟨1, "u1", "Player", "A", 3⟩, ⟨1, "u2", "Player", "B", 1⟩],
   [], [], [], [], 1, 1, 1⟩

theorem respond_to_trade_offer_atomic_witness :
    (respond_to_trade_offer 1 "u2" "accept" tradeState).1.success = true
    ∧ (respond_to_trade_offer 1 "u2" "accept" tradeState).2.tradeOffers
        = [⟨1, "u1", "u2", "accepted"⟩]
    ∧ qtyOf (respond_to_trade_offer 1 "u2" "accept" tradeState).2 "u1" "Player" "A"
        = qtyOf tradeState "u1" "Player" "A" - 3
    ∧ qtyOf (respond_to_trade_offer 1 "u2" "accept" tradeState).2 "u2" "Player" "A"
        = qtyOf tradeState "u2" "Player" "A" + 3
    ∧ qtyOf (respond_to_trade_offer 1 "u2" "accept" tradeState).2 "u2" "Player" "B"
        = qtyOf tradeState "u2" "Player" "B" - 1
    ∧ qtyOf (respond_to_trade_offer 1 "u2" "accept" tradeState).2 "u1" "Player" "B"
        = qtyOf tradeState "u1" "Player" "B" + 1 := by
  have h := (respond_to_trade_offer_atomic 1 "u2" tradeState ⟨1, "u1", "u2", "pending"⟩
      [⟨1, "u1", "Player", "A", 3⟩] [⟨1, "u2", "Player", "B", 1⟩]
      (by decide) rfl (by decide) (by decide) (by decide) (by decide)
      (by decide) (by decide) (by decide)).2 (by decide) (by decide)
  obtain ⟨h1, h2, h3, h4⟩ := h
  have ha := h3 ⟨1, "u1", "Player", "A", 3⟩ (by simp)
  have hb := h4 ⟨1, "u2", "Player", "B", 1⟩ (by simp)
  exact ⟨h1, by rw [h2]; decide, ha.1, ha.2, hb.1, hb.2⟩

end Athl3t
